import Mathlib

/-!
# CryptoTrack: the view-state controller, the retry client, the modal body and
the plexus frame

A shallow embedding of `src/script.js`.  JavaScript strings are sequences of
UTF-16 code units, integers that the script only counts with are natural
numbers, and everything the script awaits (the network) is an explicit
argument of the function that awaits it.
-/

namespace CryptoTrack

/-- A JavaScript string, as its sequence of UTF-16 code units. -/
abbrev Str := List Nat

/-! ## HTTP client with retry (`fetchWithRetry`, lines 48-65) -/

/-- A `Response` as far as the script reads it: the status, and a tag that
tells response objects apart. -/
structure Response where
  status : Nat
  tag : Nat
  deriving DecidableEq

/-- The getter `response.ok` of the Fetch standard: the status is in 200..299. -/
def Response.ok (r : Response) : Bool :=
  decide (200 ≤ r.status) && decide (r.status ≤ 299)

/-- What one `await fetch(url, options)` settles to. -/
inductive FetchOutcome where
  | response (r : Response)
  | rejected (cause : Nat)
  deriving DecidableEq

/-- The values thrown inside the `try` block of `fetchWithRetry`: the `Error`
built on line 56, or whatever `fetch` rejected with. -/
inductive ErrorValue where
  | apiError (status : Nat)
  | transport (cause : Nat)
  deriving DecidableEq

/-- A thrown value together with the loop index of the attempt that threw it. -/
structure Failure where
  attempt : Nat
  error : ErrorValue
  deriving DecidableEq

/-- The `try` block, lines 51-58, of attempt number `i`. -/
def attempt (i : Nat) : FetchOutcome → Except Failure Response
  | .rejected c => .error ⟨i, .transport c⟩
  | .response r =>
    if !r.ok && r.status != 429 && decide (r.status < 500) then .ok r
    else if !r.ok then .error ⟨i, .apiError r.status⟩
    else .ok r

/-- The observable effects of the retry client, in order. -/
inductive Effect where
  | fetchCall
  | wait (ms : Nat)
  deriving DecidableEq

/-- How a call of `fetchWithRetry` ends. `undefined` is falling out of the
`for` loop, which happens only for `retries = 0`. -/
inductive Completion where
  | returned (r : Response)
  | threw (f : Failure)
  | undefined
  deriving DecidableEq

/-- The completion of a call together with the effects it performed. -/
structure Run where
  completion : Completion
  trace : List Effect
  deriving DecidableEq

/-- The `for` loop of `fetchWithRetry` from index `i` on. `fetch k` is what the
`k`-th invocation of `fetch` settles to. The first argument bounds the number of
iterations still to run; `fetchWithRetry` starts it at `retries`, which is never
used up before the loop test `i < retries` fails. -/
def fetchLoop (fetch : Nat → FetchOutcome) (retries : Nat) :
    Nat → Nat → Nat → List Effect → Run
  | 0, _, _, trace => ⟨.undefined, trace⟩
  | fuel + 1, i, backoff, trace =>
    if i < retries then
      match attempt i (fetch i) with
      | .ok r => ⟨.returned r, trace ++ [.fetchCall]⟩
      | .error e =>
        if i = retries - 1 then ⟨.threw e, trace ++ [.fetchCall]⟩
        else fetchLoop fetch retries fuel (i + 1) (backoff * 2)
          (trace ++ [.fetchCall, .wait backoff])
    else ⟨.undefined, trace⟩

/-- The function `fetchWithRetry(url, options, retries, backoff)`. -/
def fetchWithRetry (fetch : Nat → FetchOutcome) (retries backoff : Nat) : Run :=
  fetchLoop fetch retries retries 0 backoff []

/-- The default arguments `retries = 3, backoff = 1000`. -/
def fetchWithRetryDefault (fetch : Nat → FetchOutcome) : Run :=
  fetchWithRetry fetch 3 1000

/-- Number of `fetch` invocations in a trace. -/
def invocations (t : List Effect) : Nat :=
  t.count .fetchCall

/-- The delays waited in a trace, in order. -/
def delays : List Effect → List Nat
  | [] => []
  | .fetchCall :: t => delays t
  | .wait ms :: t => ms :: delays t

/-- A mock `fetch` that answers with the listed statuses in turn (the tag of a
response is its position) and rejects once the list is used up. -/
def mockFetch (statuses : List Nat) (k : Nat) : FetchOutcome :=
  match statuses.get? k with
  | some s => .response ⟨s, k⟩
  | none => .rejected k

/-- The effects of `k` failed attempts, each followed by its wait, and of one
last attempt, when the backoff before the first of them is `b`. -/
def retryTrace (b : Nat) : Nat → List Effect
  | 0 => [.fetchCall]
  | k + 1 => .fetchCall :: .wait b :: retryTrace (b * 2) k

/-- The retry class as the specification words it: the status is 429 or lies
in [500, 600). -/
def specRetryableStatus (status : Nat) : Prop :=
  status = 429 ∨ (500 ≤ status ∧ status < 600)

instance (status : Nat) : Decidable (specRetryableStatus status) := by
  unfold specRetryableStatus; infer_instance

/-- An attempt outcome that the specification calls retryable: a transport
failure, or a response whose status is 429 or 5xx. -/
def specRetryable : FetchOutcome → Prop
  | .rejected _ => True
  | .response r => specRetryableStatus r.status

/-- The value a retryable attempt throws: the rejection cause of `fetch`, or
the `Error` of line 56 for the status received. -/
def thrownBy : FetchOutcome → ErrorValue
  | .rejected c => .transport c
  | .response r => .apiError r.status

/-! ## View state (`state`, lines 21-31) and the DOM the handlers touch -/

/-- The string built-ins the script calls (`String.prototype.toLowerCase` and
`toUpperCase`), taken as given. -/
structure Builtins where
  toLowerCase : Str → Str
  toUpperCase : Str → Str

/-- The built-in `String.prototype.includes`: `t` occurs in `s` as a contiguous
run of code units. -/
def includes : Str → Str → Bool
  | [], t => t.isPrefixOf []
  | c :: s, t => t.isPrefixOf (c :: s) || includes s t

/-- The built-in `Array.prototype.slice(start, stop)` for non-negative
arguments. -/
def slice {α : Type} (xs : List α) (start stop : Nat) : List α :=
  (xs.drop start).take (stop - start)

/-- The value of `Math.ceil(a / b)` for non-negative integers `a` and `b > 0`. -/
def ceilDiv (a b : Nat) : Nat :=
  (a + b - 1) / b

/-- A coin summary, as far as the controller reads it. -/
structure Coin where
  id : Str
  name : Str
  symbol : Str
  deriving DecidableEq

/-- The object `{ id: coinId, name: coinName }` stored in `state.selectedCoin`. -/
structure Selected where
  id : Str
  name : Str
  deriving DecidableEq

/-- An `Intl.NumberFormat` of style `currency`: the currency code it was
constructed with, and whether it uses the compact notation. -/
structure Formatter where
  currency : Str
  compact : Bool
  deriving DecidableEq

/-- The test `IsWellFormedCurrencyCode` of ECMA-402 that the constructor of
`Intl.NumberFormat` applies to the `currency` option: three ASCII letters. -/
def isWellFormedCurrencyCode (code : Str) : Bool :=
  decide (code.length = 3) &&
    code.all fun c => (decide (65 ≤ c) && decide (c ≤ 90)) || (decide (97 ≤ c) && decide (c ≤ 122))

/-- The record `state`. `priceChart` refers to a constructed chart by its
position in `Page.charts`. -/
structure State where
  allCoins : List Coin
  currentPage : Nat
  coinsPerPage : Nat
  currentCurrency : Str
  selectedCoin : Option Selected
  selectedChartDays : Nat
  priceChart : Option Nat
  currencyFormatter : Option Formatter
  marketCapFormatter : Option Formatter
  deriving DecidableEq

/-- The content of `dom.tableContainer`: the placeholder of line 126, or one row
per coin handed to `renderTable`. -/
inductive TableHtml where
  | nothingFound
  | rows (coins : List Coin)
  deriving DecidableEq

/-- The content of `dom.paginationControls` when it is not the empty string:
the class suffixes of the two buttons and the two numbers of the label. -/
structure Controls where
  prevDisabled : String
  page : Nat
  totalPages : Nat
  nextDisabled : String
  deriving DecidableEq

/-- The text of `dom.chartTitle`: what the page starts with, the title of a
coin's chart (lines 162 and 248), or the error text of line 92. -/
inductive ChartTitle where
  | initial
  | chartOf (name : Str)
  | loadError
  deriving DecidableEq

/-- A `Chart` instance: the series it draws and whether `destroy()` was called
on it. -/
structure ChartInstance where
  title : Str
  prices : List (Nat × Nat)
  destroyed : Bool
  deriving DecidableEq

/-- The request of an in-flight `fetchChartData` call: the three values
interpolated into the URL on line 86. -/
structure ChartRequest where
  coinId : Str
  currency : Str
  days : Nat
  deriving DecidableEq

/-- The script's `state` together with what its handlers read and write
outside it: the filter input, the rendered table and controls, the loaders, the
chart title, the classes `hidden` and `opacity-0` of the modal, the scroll lock
of the body, the timers of the modal not yet fired, the charts constructed so
far and the requests in flight. -/
structure Page where
  state : State
  filterValue : Str
  table : Option TableHtml
  pagination : Option Controls
  loaderShown : Bool
  chartLoaderShown : Bool
  chartTitle : ChartTitle
  errorShown : Bool
  modalHidden : Bool
  modalOpacity0 : Bool
  bodyOverflowHidden : Bool
  openTimers : Nat
  closeTimers : Nat
  charts : List ChartInstance
  pendingMarkets : List Str
  pendingCharts : List ChartRequest
  pendingDetails : List Str
  deriving DecidableEq

/-- The literal of lines 21-31. -/
def initialState : State :=
  { allCoins := [], currentPage := 1, coinsPerPage := 20, currentCurrency := [117, 115, 100],
    selectedCoin := none, selectedChartDays := 30, priceChart := none,
    currencyFormatter := none, marketCapFormatter := none }

/-- The page before the script has run: the modal is hidden and nothing has
been rendered or requested. -/
def initialPage : Page :=
  { state := initialState, filterValue := [], table := none, pagination := none,
    loaderShown := false, chartLoaderShown := false, chartTitle := .initial,
    errorShown := false,
    modalHidden := true, modalOpacity0 := true, bodyOverflowHidden := false,
    openTimers := 0, closeTimers := 0, charts := [], pendingMarkets := [],
    pendingCharts := [], pendingDetails := [] }

/-- The function `setupFormatters`, lines 33-46. The constructor of
`Intl.NumberFormat` throws a `RangeError` on a currency code that is not well
formed; the first constructor call then leaves both formatters as they were. -/
def setupFormatters (js : Builtins) (s : State) : Except State State :=
  if isWellFormedCurrencyCode (js.toUpperCase s.currentCurrency) then
    .ok { s with
      currencyFormatter := some ⟨js.toUpperCase s.currentCurrency, false⟩
      marketCapFormatter := some ⟨js.toUpperCase s.currentCurrency, true⟩ }
  else .error s

/-- The constant `filteredCoins` of `render`, line 113. -/
def filteredCoins (js : Builtins) (pg : Page) : List Coin :=
  pg.state.allCoins.filter fun c =>
    includes (js.toLowerCase c.name) (js.toLowerCase pg.filterValue) ||
      includes (js.toLowerCase c.symbol) (js.toLowerCase pg.filterValue)

/-- The constant `paginatedCoins` of `render`, lines 115-118. -/
def paginatedCoins (js : Builtins) (pg : Page) : List Coin :=
  slice (filteredCoins js pg) ((pg.state.currentPage - 1) * pg.state.coinsPerPage)
    (pg.state.currentPage * pg.state.coinsPerPage)

/-- The function `renderTable`, lines 124-143 (the cells of a row are not
modelled, only which coins get a row). -/
def renderTable (coins : List Coin) (pg : Page) : Page :=
  if coins.length = 0 then { pg with table := some .nothingFound }
  else { pg with table := some (.rows coins) }

/-- What `renderPaginationControls(totalItems)` assigns last to
`dom.paginationControls.innerHTML`; `none` is the empty string of line 147. -/
def paginationHtml (s : State) (totalItems : Nat) : Option Controls :=
  if ceilDiv totalItems s.coinsPerPage ≤ 1 then none
  else some
    { prevDisabled := if s.currentPage = 1 then "opacity-50 cursor-not-allowed" else ""
      page := s.currentPage
      totalPages := ceilDiv totalItems s.coinsPerPage
      nextDisabled :=
        if s.currentPage = ceilDiv totalItems s.coinsPerPage then "opacity-50 cursor-not-allowed"
        else "" }

/-- The function `renderPaginationControls`, lines 145-158. -/
def renderPaginationControls (totalItems : Nat) (pg : Page) : Page :=
  { pg with pagination := paginationHtml pg.state totalItems }

/-- The function `render`, lines 111-122. -/
def render (js : Builtins) (pg : Page) : Page :=
  renderPaginationControls (filteredCoins js pg).length (renderTable (paginatedCoins js pg) pg)

/-- The function `showLoader`, lines 273-278: the loader is displayed exactly
while loading (the table and the controls exactly otherwise), and the error
banner is hidden when loading starts. -/
def showLoader (isLoading : Bool) (pg : Page) : Page :=
  { pg with loaderShown := isLoading, errorShown := if isLoading then false else pg.errorShown }

/-- The function `showError`, lines 280-283. -/
def showError (pg : Page) : Page :=
  { pg with errorShown := true }

/-- The call `state.priceChart.destroy()` guarded by `if (state.priceChart)`,
lines 84 and 247. -/
def destroyPriceChart (pg : Page) : Page :=
  match pg.state.priceChart with
  | none => pg
  | some k => { pg with charts := pg.charts.modify (fun c => { c with destroyed := true }) k }

/-- The part of `fetchCoinData`, lines 67-70, that runs before its `await`:
the loader is shown and the markets request for the active currency is sent. -/
def fetchCoinData (pg : Page) : Page :=
  { showLoader true pg with pendingMarkets := pg.pendingMarkets ++ [pg.state.currentCurrency] }

/-- The part of `fetchChartData`, lines 81-87, that runs before its `await`. -/
def fetchChartData (pg : Page) : Page :=
  match pg.state.selectedCoin with
  | none => pg
  | some coin =>
    let pg1 := destroyPriceChart { pg with chartLoaderShown := true }
    { pg1 with pendingCharts := pg1.pendingCharts ++
        [⟨coin.id, pg1.state.currentCurrency, pg1.state.selectedChartDays⟩] }

/-- The part of `fetchCoinDetails`, lines 98-102, that runs before its `await`. -/
def fetchCoinDetails (coinId : Str) (pg : Page) : Page :=
  { pg with pendingDetails := pg.pendingDetails ++ [coinId] }

/-- The function `openModal`, lines 285-292: its synchronous part, which also
schedules the callback of lines 288-291. -/
def openModal (pg : Page) : Page :=
  { pg with modalHidden := false, bodyOverflowHidden := true, openTimers := pg.openTimers + 1 }

/-- The callback `openModal` scheduled, lines 288-291, firing after 10 ms. -/
def openModalTimer (pg : Page) : Page :=
  if 0 < pg.openTimers then { pg with modalOpacity0 := false, openTimers := pg.openTimers - 1 }
  else pg

/-- The function `closeModal`, lines 294-299: its synchronous part, which also
schedules the callback of line 298. -/
def closeModal (pg : Page) : Page :=
  { pg with modalOpacity0 := true, bodyOverflowHidden := false,
            closeTimers := pg.closeTimers + 1 }

/-- The callback `closeModal` scheduled, line 298, firing after 300 ms. -/
def closeModalTimer (pg : Page) : Page :=
  if 0 < pg.closeTimers then { pg with modalHidden := true, closeTimers := pg.closeTimers - 1 }
  else pg

/-- The handler `handleFilter`, lines 217-220, run after the input's value has
become `term`. -/
def handleFilter (js : Builtins) (term : Str) (pg : Page) : Page :=
  let pg1 := { pg with filterValue := term }
  render js { pg1 with state := { pg1.state with currentPage := 1 } }

/-- The handler `handleCurrencyChange`, lines 222-228. `.error` is the handler
leaving by the `RangeError` of `setupFormatters`, with the page as it then is. -/
def handleCurrencyChange (js : Builtins) (value : Str) (pg : Page) : Except Page Page :=
  let s1 := { pg.state with currentCurrency := value, currentPage := 1 }
  match setupFormatters js s1 with
  | .error s2 => .error { pg with state := s2 }
  | .ok s2 =>
    let pg1 := fetchCoinData { pg with state := s2 }
    .ok (if pg1.state.selectedCoin.isSome then fetchChartData pg1 else pg1)

/-- The handler `handleChartPeriodChange`, lines 230-238; `days` is `none` when
the click hit no button. -/
def handleChartPeriodChange (days : Option Nat) (pg : Page) : Page :=
  match days with
  | none => pg
  | some d => fetchChartData { pg with state := { pg.state with selectedChartDays := d } }

/-- The handler `handleRowClick`, lines 240-254; `row` is `none` when the click
hit no table row. -/
def handleRowClick (row : Option Selected) (pg : Page) : Page :=
  match row with
  | none => pg
  | some sel =>
    let pg1 := { pg with state := { pg.state with selectedCoin := some sel } }
    let pg2 := destroyPriceChart pg1
    let pg3 := { pg2 with chartTitle := .chartOf sel.name }
    openModal (fetchCoinDetails sel.id (fetchChartData pg3))

/-- The `data-action` of a pagination button. -/
inductive PageAction where
  | prev
  | next
  deriving DecidableEq

/-- The handler `handlePaginationClick`, lines 256-271; `button` is `none` when
the click hit no button. -/
def handlePaginationClick (js : Builtins) (button : Option PageAction) (pg : Page) : Page :=
  match button with
  | none => pg
  | some action =>
    let totalPages := ceilDiv pg.state.allCoins.length pg.state.coinsPerPage
    let pg1 :=
      if action = .prev ∧ pg.state.currentPage > 1 then
        render js { pg with state := { pg.state with currentPage := pg.state.currentPage - 1 } }
      else pg
    if action = .next ∧ pg1.state.currentPage < totalPages then
      render js { pg1 with state := { pg1.state with currentPage := pg1.state.currentPage + 1 } }
    else pg1

/-- The function `renderChart`, lines 160-180: a new `Chart` is constructed on
the one canvas of the page (line 11) and stored in `state.priceChart`. The
script is written against the API of Chart.js 3 and later
(`options.plugins.tooltip`, `scales.x`, `c.parsed.y`), whose constructor throws
`Canvas is already in use` while a chart that was not destroyed holds the
canvas. `none` is that throw, or the `TypeError` of line 162 when nothing is
selected. -/
def renderChart (prices : List (Nat × Nat)) (pg : Page) : Option Page :=
  match pg.state.selectedCoin with
  | none => none
  | some coin =>
    if pg.charts.any (fun c => !c.destroyed) then none
    else
      some { pg with
        chartTitle := .chartOf coin.name
        charts := pg.charts ++ [⟨coin.name, prices, false⟩]
        state := { pg.state with priceChart := some pg.charts.length } }

/-- The rest of `fetchChartData`, lines 87-95, once the request at position `k`
of the in-flight chart requests settles: with `some prices` when
`fetchWithRetry` returned an `ok` response carrying that series, with `none`
when it threw or the response was not `ok`. A throw of `renderChart` is caught
on line 91 like a failed request. -/
def chartFetchDone (k : Nat) (result : Option (List (Nat × Nat))) (pg : Page) : Page :=
  if k < pg.pendingCharts.length then
    let pg1 := { pg with pendingCharts := pg.pendingCharts.eraseIdx k }
    let pg2 :=
      match result.bind fun prices => renderChart prices pg1 with
      | some pg' => pg'
      | none => { pg1 with chartTitle := .loadError }
    { pg2 with chartLoaderShown := false }
  else pg

/-- The rest of `fetchCoinData`, lines 70-78, once the request at position `k`
of the in-flight markets requests settles: with `some coins` for an `ok`
response carrying that list, with `none` otherwise. -/
def marketsFetchDone (js : Builtins) (k : Nat) (result : Option (List Coin)) (pg : Page) :
    Page :=
  if k < pg.pendingMarkets.length then
    let pg1 := { pg with pendingMarkets := pg.pendingMarkets.eraseIdx k }
    let pg2 :=
      match result with
      | some coins => render js { pg1 with state := { pg1.state with allCoins := coins } }
      | none => showError pg1
    showLoader false pg2
  else pg

/-- What can happen to the page: the user's intents, the timers of the modal
and the settling of in-flight requests. -/
inductive Event where
  | filterChanged (term : Str)
  | currencyChanged (value : Str)
  | chartPeriodChanged (days : Option Nat)
  | rowClicked (row : Option Selected)
  | paginationClicked (button : Option PageAction)
  | modalDismissed
  | openTimerFired
  | closeTimerFired
  | chartFetchSettled (k : Nat) (result : Option (List (Nat × Nat)))
  | marketsFetchSettled (k : Nat) (result : Option (List Coin))
  deriving DecidableEq

/-- One step of the page: the handler the script registers for the event. -/
def step (js : Builtins) (pg : Page) : Event → Page
  | .filterChanged term => handleFilter js term pg
  | .currencyChanged value =>
    match handleCurrencyChange js value pg with
    | .ok pg' => pg'
    | .error pg' => pg'
  | .chartPeriodChanged days => handleChartPeriodChange days pg
  | .rowClicked row => handleRowClick row pg
  | .paginationClicked button => handlePaginationClick js button pg
  | .modalDismissed => closeModal pg
  | .openTimerFired => openModalTimer pg
  | .closeTimerFired => closeModalTimer pg
  | .chartFetchSettled k result => chartFetchDone k result pg
  | .marketsFetchSettled k result => marketsFetchDone js k result pg

/-- The page after a sequence of events. -/
def run (js : Builtins) (pg : Page) (events : List Event) : Page :=
  events.foldl (step js) pg

/-- The initial page once the coin list `coins` is loaded. -/
def pageWithCoins (coins : List Coin) : Page :=
  { initialPage with state := { initialState with allCoins := coins } }

/-- The intents of the filter, the pagination buttons and the currency
selector. -/
def Event.isPagingIntent : Event → Bool
  | .filterChanged _ => true
  | .paginationClicked _ => true
  | .currencyChanged _ => true
  | _ => false

/-- Number of constructed charts on which `destroy()` has not been called. -/
def liveCharts (pg : Page) : Nat :=
  (pg.charts.filter fun c => !c.destroyed).length

/-- ASCII-only case mapping, for concrete runs. -/
def asciiBuiltins : Builtins :=
  { toLowerCase := List.map fun c => if 65 ≤ c ∧ c ≤ 90 then c + 32 else c
    toUpperCase := List.map fun c => if 97 ≤ c ∧ c ≤ 122 then c - 32 else c }

/-- The modal is closed: it carries the classes `hidden` and `opacity-0`, the
scroll lock of the body is released and no opening callback is still to fire. -/
def modalClosed (pg : Page) : Prop :=
  pg.modalHidden = true ∧ pg.modalOpacity0 = true ∧ pg.bodyOverflowHidden = false ∧
    pg.openTimers = 0

instance (pg : Page) : Decidable (modalClosed pg) := by
  unfold modalClosed; infer_instance

/-- The event is a click that hits a table row. -/
def Event.selects : Event → Bool
  | .rowClicked (some _) => true
  | _ => false

/-- The row of the coin `btc` named `Btc`. -/
def btcRow : Selected := ⟨[98, 116, 99], [66, 116, 99]⟩

/-- The charts of `pg` are those of `pg'` up to calls of `destroy()`: as many,
and no more of them undestroyed. -/
def ChartsKept (pg pg' : Page) : Prop :=
  pg'.charts.length = pg.charts.length ∧ liveCharts pg' ≤ liveCharts pg

/-- The page `pg'` has one chart more than `pg`, constructed while every chart
of `pg` was destroyed. -/
def ChartBuilt (pg pg' : Page) : Prop :=
  (∀ c ∈ pg.charts, c.destroyed = true) ∧
  ∃ c, pg'.charts = pg.charts ++ [c] ∧ c.destroyed = false

/-- The class suffix that marks a pagination button as disabled, lines 150-151. -/
def disabledClass : String := "opacity-50 cursor-not-allowed"

/-- A coin matches a search term as the specification words it: the lower-cased
term occurs in the lower-cased name or in the lower-cased symbol. -/
def specMatches (js : Builtins) (term : Str) (c : Coin) : Prop :=
  js.toLowerCase term <:+: js.toLowerCase c.name ∨
    js.toLowerCase term <:+: js.toLowerCase c.symbol

instance (js : Builtins) (term : Str) (c : Coin) : Decidable (specMatches js term c) := by
  unfold specMatches; infer_instance

/-- The page that shows page `p` of the list `coins` under the search term
`term`. -/
def pageAt (coins : List Coin) (term : Str) (p : Nat) : Page :=
  { pageWithCoins coins with
    filterValue := term
    state := { initialState with allCoins := coins, currentPage := p } }

/-- The page `pg` switched to page `q`. -/
def atPage (pg : Page) (q : Nat) : Page :=
  { pg with state := { pg.state with currentPage := q } }

/-- A list of 41 coins of which the first 21 are named `a` and the others `b`. -/
def fortyOneCoins : List Coin :=
  List.replicate 21 ⟨[1], [97], [97]⟩ ++ List.replicate 20 ⟨[2], [98], [98]⟩

/-! ## Modal body (`renderModalContent`, lines 182-215) -/

/-- The object `details.description`: its entries for the locales `ru` and
`en`, each possibly absent. -/
structure Description where
  ru : Option Str
  en : Option Str

/-- The object `details.market_data`: the entries keyed by currency code, each
lookup possibly `undefined`, and the two supplies. -/
structure MarketData where
  currentPrice : Str → Option Int
  priceChangePercentage24hInCurrency : Str → Option Int
  marketCap : Str → Option Int
  totalVolume : Str → Option Int
  high24h : Str → Option Int
  low24h : Str → Option Int
  circulatingSupply : Option Int
  totalSupply : Option Int

/-- A coin detail, as far as `renderModalContent` reads it. -/
structure CoinDetail where
  name : Str
  symbol : Str
  imageLarge : Str
  marketCapRank : Nat
  marketData : MarketData
  description : Description

/-- A `TypeError` raised by calling a method on `undefined` or `null`; `method`
names the method. -/
structure TypeError where
  method : String
  deriving DecidableEq

/-- A number handed to `format` of an `Intl.NumberFormat`. -/
structure Formatted where
  formatter : Formatter
  value : Option Int

/-- The content `renderModalContent` assigns to `dom.modalContent.innerHTML`:
the interpolated values of the template of lines 187-214, in order. The total
supply is `none` where the template shows the infinity sign. -/
structure ModalHtml where
  imageLarge : Str
  name : Str
  symbol : Str
  marketCapRank : Nat
  currentPrice : Formatted
  priceChangeColor : String
  priceChange24h : Int
  marketCap : Formatted
  totalVolume : Formatted
  high24h : Formatted
  low24h : Formatted
  circulatingSupply : Option Int
  totalSupply : Option Int
  description : Str

/-- The call `s.split('. ')` of `String.prototype.split`; `acc` holds, latest
first, the code units of the piece being read. -/
def splitDotSpace : Str → Str → List Str
  | [], acc => [acc.reverse]
  | [c], acc => [(c :: acc).reverse]
  | c :: d :: rest, acc =>
    if c = 46 ∧ d = 32 then acc.reverse :: splitDotSpace rest []
    else splitDotSpace (d :: rest) (c :: acc)

/-- The built-in `Array.prototype.join(sep)` on an array of strings. -/
def join (sep : Str) (parts : List Str) : Str :=
  List.intercalate sep parts

/-- The right operand of `||` on line 212:
`details.description.en.split('. ').slice(0, 2).join('. ') + '.'`, a `TypeError`
when `en` is absent. -/
def englishDescription (d : Description) : Except TypeError Str :=
  match d.en with
  | none => .error ⟨"split"⟩
  | some en => .ok (join [46, 32] (slice (splitDotSpace en []) 0 2) ++ [46])

/-- The expression of line 212: `details.description.ru || ...`; the left
operand is taken when it is a non-empty string. -/
def descriptionHtml (d : Description) : Except TypeError Str :=
  match d.ru with
  | some (c :: ru) => .ok (c :: ru)
  | _ => englishDescription d

/-- The function `renderModalContent`, lines 182-215: the values interpolated
into the template, evaluated in the order of the template. -/
def renderModalContent (s : State) (details : CoinDetail) : Except TypeError ModalHtml := do
  let data := details.marketData
  let priceChange24h := data.priceChangePercentage24hInCurrency s.currentCurrency
  let priceChangeColor :=
    match priceChange24h with
    | some v => if v ≥ 0 then "text-green-400" else "text-red-400"
    | none => "text-red-400"
  let currencyFormatter ←
    match s.currencyFormatter with
    | some f => pure f
    | none => throw ⟨"format"⟩
  let change ←
    match priceChange24h with
    | some v => pure v
    | none => throw ⟨"toFixed"⟩
  let marketCapFormatter ←
    match s.marketCapFormatter with
    | some f => pure f
    | none => throw ⟨"format"⟩
  let description ← descriptionHtml details.description
  pure
    { imageLarge := details.imageLarge
      name := details.name
      symbol := details.symbol
      marketCapRank := details.marketCapRank
      currentPrice := ⟨currencyFormatter, data.currentPrice s.currentCurrency⟩
      priceChangeColor := priceChangeColor
      priceChange24h := change
      marketCap := ⟨marketCapFormatter, data.marketCap s.currentCurrency⟩
      totalVolume := ⟨marketCapFormatter, data.totalVolume s.currentCurrency⟩
      high24h := ⟨currencyFormatter, data.high24h s.currentCurrency⟩
      low24h := ⟨currencyFormatter, data.low24h s.currentCurrency⟩
      circulatingSupply := data.circulatingSupply
      totalSupply := match data.totalSupply with
        | some 0 => none
        | t => t
      description := description }

/-- The state once `setupFormatters` has run for the initial currency `usd`. -/
def usdState : State :=
  { initialState with
    currencyFormatter := some ⟨[85, 83, 68], false⟩
    marketCapFormatter := some ⟨[85, 83, 68], true⟩ }

/-- A coin detail with every market value present for every currency and the
given description. -/
def detailWith (d : Description) : CoinDetail :=
  { name := [66, 116, 99], symbol := [98, 116, 99], imageLarge := [], marketCapRank := 1,
    marketData :=
      { currentPrice := fun _ => some 100
        priceChangePercentage24hInCurrency := fun _ => some 2
        marketCap := fun _ => some 1000
        totalVolume := fun _ => some 10
        high24h := fun _ => some 101
        low24h := fun _ => some 99
        circulatingSupply := some 5
        totalSupply := some 21 }
    description := d }

/-! ## Plexus background (`initPlexusBackground`, lines 325-449)

Numbers are the elements of a linearly ordered field `α`; `Math.sqrt` and the
rounding of a store into a `Float32Array` are taken as given. -/

/-- The constant `PARTICLE_COUNT`, line 328. -/
def PARTICLE_COUNT : Nat := 150

/-- The length `PARTICLE_COUNT * PARTICLE_COUNT * 3` of `linePositions`,
line 370. -/
def linePositionsLength : Nat := PARTICLE_COUNT * PARTICLE_COUNT * 3

/-- The numeric built-ins `animate` relies on. -/
structure Numerics (α : Type) where
  sqrt : α → α
  fround : α → α

/-- A `THREE.Vector3`. -/
structure Vector3 (α : Type) where
  x : α
  y : α
  z : α

/-- An entry `{ x, y }` of `velocities`, lines 349-352. -/
structure Velocity (α : Type) where
  x : α
  y : α

/-- What `animate` reads besides the particle arrays: `mouse.x`, `mouse.y`,
`window.innerWidth` and `window.innerHeight`. -/
structure Pointer (α : Type) where
  mouseX : α
  mouseY : α
  innerWidth : α
  innerHeight : α

/-- The arrays `animate` works on and its local `lineVertexIndex`. The list
`lineWrites` records the indices of `linePositions` stored to, latest first. -/
structure Plexus (α : Type) where
  positions : Nat → α
  velocities : Nat → Velocity α
  linePositions : Nat → α
  lineVertexIndex : Nat
  lineWrites : List Nat

section PlexusFrame

variable {α : Type} [LinearOrderedField α]

/-- The method `Vector3.distanceTo` of three.js: the root of the squared
distance. -/
def Vector3.distanceTo (num : Numerics α) (p q : Vector3 α) : α :=
  num.sqrt ((p.x - q.x) * (p.x - q.x) + (p.y - q.y) * (p.y - q.y) + (p.z - q.z) * (p.z - q.z))

/-- The method `Vector3.sub` of three.js. -/
def Vector3.sub (p q : Vector3 α) : Vector3 α :=
  ⟨p.x - q.x, p.y - q.y, p.z - q.z⟩

/-- The method `Vector3.normalize` of three.js: `divideScalar(length() || 1)`,
where `divideScalar(s)` multiplies by `1 / s`. -/
def Vector3.normalize (num : Numerics α) (p : Vector3 α) : Vector3 α :=
  let len := num.sqrt (p.x * p.x + p.y * p.y + p.z * p.z)
  let s := if len = 0 then 1 else len
  ⟨p.x * (1 / s), p.y * (1 / s), p.z * (1 / s)⟩

/-- A store `positions[k] = v` into the `Float32Array` of positions. -/
def Plexus.setPosition (num : Numerics α) (f : Plexus α) (k : Nat) (v : α) : Plexus α :=
  { f with positions := Function.update f.positions k (num.fround v) }

/-- A store `linePositions[lineVertexIndex++] = v`. -/
def Plexus.pushLine (num : Numerics α) (f : Plexus α) (v : α) : Plexus α :=
  { f with
    linePositions := Function.update f.linePositions f.lineVertexIndex (num.fround v)
    lineWrites := f.lineVertexIndex :: f.lineWrites
    lineVertexIndex := f.lineVertexIndex + 1 }

/-- The body of the inner loop, lines 427-439, for the pair `(i, j)`. -/
def pairStep (num : Numerics α) (i j : Nat) (f : Plexus α) : Plexus α :=
  let dx := f.positions (i * 3) - f.positions (j * 3)
  let dy := f.positions (i * 3 + 1) - f.positions (j * 3 + 1)
  let dz := f.positions (i * 3 + 2) - f.positions (j * 3 + 2)
  let distance := num.sqrt (dx * dx + dy * dy + dz * dz)
  if distance < 80 then
    let f1 := f.pushLine num (f.positions (i * 3))
    let f2 := f1.pushLine num (f1.positions (i * 3 + 1))
    let f3 := f2.pushLine num (f2.positions (i * 3 + 2))
    let f4 := f3.pushLine num (f3.positions (j * 3))
    let f5 := f4.pushLine num (f4.positions (j * 3 + 1))
    f5.pushLine num (f5.positions (j * 3 + 2))
  else f

/-- The inner loop `for (let j = ...; j < PARTICLE_COUNT; j++)`, line 426, from
index `j` on, for `n` particles. The first argument bounds the iterations still
to run. -/
def pairLoop (num : Numerics α) (n i : Nat) : Nat → Nat → Plexus α → Plexus α
  | 0, _, f => f
  | fuel + 1, j, f =>
    if j < n then pairLoop num n i fuel (j + 1) (pairStep num i j f) else f

/-- Lines 412-424 for particle `i`: integration, repulsion from the mouse
anchor, reflection of the velocity at the walls. -/
def moveParticle (num : Numerics α) (inp : Pointer α) (i : Nat) (f : Plexus α) : Plexus α :=
  let mouse3D : Vector3 α :=
    ⟨inp.mouseX * inp.innerWidth / 5, inp.mouseY * inp.innerHeight / 5, 0⟩
  let f1 := f.setPosition num (i * 3) (f.positions (i * 3) + (f.velocities i).x)
  let f2 := f1.setPosition num (i * 3 + 1) (f1.positions (i * 3 + 1) + (f1.velocities i).y)
  let p : Vector3 α := ⟨f2.positions (i * 3), f2.positions (i * 3 + 1), f2.positions (i * 3 + 2)⟩
  let distanceToMouse := p.distanceTo num mouse3D
  let f4 :=
    if distanceToMouse < 100 then
      let direction := (p.sub mouse3D).normalize num
      let f3 := f2.setPosition num (i * 3) (f2.positions (i * 3) + direction.x * (1 / 2))
      f3.setPosition num (i * 3 + 1) (f3.positions (i * 3 + 1) + direction.y * (1 / 2))
    else f2
  let f5 :=
    if |f4.positions (i * 3)| > inp.innerWidth / 2 then
      { f4 with velocities :=
          Function.update f4.velocities i { f4.velocities i with x := (f4.velocities i).x * (-1) } }
    else f4
  if |f5.positions (i * 3 + 1)| > inp.innerHeight / 2 then
    { f5 with velocities :=
        Function.update f5.velocities i { f5.velocities i with y := (f5.velocities i).y * (-1) } }
  else f5

/-- The outer loop `for (let i = ...; i < PARTICLE_COUNT; i++)`, lines 411-441,
from index `i` on, for `n` particles. The first argument bounds the iterations
still to run. -/
def particleLoop (num : Numerics α) (inp : Pointer α) (n : Nat) :
    Nat → Nat → Plexus α → Plexus α
  | 0, _, f => f
  | fuel + 1, i, f =>
    if i < n then
      particleLoop num inp n fuel (i + 1)
        (pairLoop num n i n (i + 1) (moveParticle num inp i f))
    else f

/-- One call of `animate`, lines 397-448, for `n` particles: `lineVertexIndex`
starts at 0 and both loops run to `n`. -/
def animateFor (num : Numerics α) (inp : Pointer α) (n : Nat) (f : Plexus α) : Plexus α :=
  particleLoop num inp n n 0 { f with lineVertexIndex := 0, lineWrites := [] }

/-- One call of `animate`, lines 397-448. -/
def animate (num : Numerics α) (inp : Pointer α) (f : Plexus α) : Plexus α :=
  animateFor num inp PARTICLE_COUNT f

/-- The vertex count `lineVertexIndex / 3` handed to `setDrawRange`, line 443. -/
def drawCount (f : Plexus α) : Nat :=
  f.lineVertexIndex / 3

end PlexusFrame

/-- The frame `g` continues the line buffer of `f` by at most `c` segments: the
index has advanced by six floats per segment, every recorded store lies below
the index if that held before, and nothing at or above the index was stored
to. -/
def Extends {α : Type} (f g : Plexus α) (c : Nat) : Prop :=
  (∃ k, k ≤ c ∧ g.lineVertexIndex = f.lineVertexIndex + 6 * k) ∧
  ((∀ w ∈ f.lineWrites, w < f.lineVertexIndex) → ∀ w ∈ g.lineWrites, w < g.lineVertexIndex) ∧
  (∀ m, g.lineVertexIndex ≤ m → g.linePositions m = f.linePositions m)

/-- The floats of `linePositions` inside the draw range, in order. -/
def emitted {α : Type} (g : Plexus α) : List α :=
  (List.range g.lineVertexIndex).map g.linePositions

section PlexusSegments

variable {α : Type} [LinearOrderedField α]

/-- The six floats stored for the pair `(i, j)` when particle `i` is read from
the array `p` and particle `j` from the array `q`: the two vertices if the
distance between them is below 80, nothing otherwise. -/
def segment (num : Numerics α) (p q : Nat → α) (i j : Nat) : List α :=
  let dx := p (i * 3) - q (j * 3)
  let dy := p (i * 3 + 1) - q (j * 3 + 1)
  let dz := p (i * 3 + 2) - q (j * 3 + 2)
  if num.sqrt (dx * dx + dy * dy + dz * dz) < 80 then
    [num.fround (p (i * 3)), num.fround (p (i * 3 + 1)), num.fround (p (i * 3 + 2)),
      num.fround (q (j * 3)), num.fround (q (j * 3 + 1)), num.fround (q (j * 3 + 2))]
  else []

/-- The segments of all pairs `(i, j)`, `i < j < n`, in lexicographic order,
particle `i` read from `p` and particle `j` from `q`. -/
def segments (num : Numerics α) (n : Nat) (p q : Nat → α) : List α :=
  (List.range' 0 n).flatMap fun i =>
    (List.range' (i + 1) (n - (i + 1))).flatMap fun j => segment num p q i j

/-- The segments of a frame as the specification words them: both particles of
a pair are read from the positions that result from this frame. -/
def specSegments (num : Numerics α) (inp : Pointer α) (f : Plexus α) : List α :=
  segments num PARTICLE_COUNT (animate num inp f).positions (animate num inp f).positions

end PlexusSegments

/-- A square root on the rationals that is exact on the squares of the natural
numbers: the integer square root of the integer part. -/
def exactSqrt (x : ℚ) : ℚ :=
  (Nat.sqrt ⌊x⌋₊ : ℚ)

/-- Rational numbers with `exactSqrt` and stores that do not round. -/
def exampleNumerics : Numerics ℚ :=
  ⟨exactSqrt, id⟩

/-- A viewport of 1000 by 1000 with the mouse at the middle of its right edge,
so that the mouse anchor is `(200, 0, 0)`. -/
def examplePointer : Pointer ℚ :=
  ⟨1, 0, 1000, 1000⟩

/-- Particle 1 at `(70, 0, 0)` with velocity `(2, 0)`; every other particle at
rest at the origin. -/
def exampleFrame : Plexus ℚ :=
  { positions := fun k => if k = 3 then 70 else 0
    velocities := fun i => if i = 1 then ⟨2, 0⟩ else ⟨0, 0⟩
    linePositions := fun _ => 0
    lineVertexIndex := 0
    lineWrites := [] }

/-! # Theorems -/

/-! ## Retry client -/

theorem invocations_append (s t : List Effect) :
    invocations (s ++ t) = invocations s + invocations t := by
  simp [invocations]

theorem delays_append (s t : List Effect) : delays (s ++ t) = delays s ++ delays t := by
  induction s with
  | nil => rfl
  | cons e s ih => cases e <;> simp [delays, ih]

theorem invocations_retryTrace (b k : Nat) : invocations (retryTrace b k) = k + 1 := by
  induction k generalizing b with
  | zero => rfl
  | succ k ih =>
    have h := ih (b * 2)
    simp only [invocations] at h ⊢
    simp [retryTrace, h]

theorem delays_retryTrace (b k : Nat) :
    delays (retryTrace b k) = (List.range k).map fun j => b * 2 ^ j := by
  induction k generalizing b with
  | zero => rfl
  | succ k ih =>
    simp only [retryTrace, delays, ih, List.range_succ_eq_map, List.map_cons, List.map_map]
    simp only [Function.comp_def, pow_succ, pow_zero, List.cons.injEq, List.map_inj_left]
    exact ⟨by ring, fun a _ => by ring⟩

theorem sum_delays_retryTrace (b k : Nat) :
    (delays (retryTrace b k)).sum = b * (2 ^ k - 1) := by
  induction k generalizing b with
  | zero => rfl
  | succ k ih =>
    simp only [retryTrace, delays, List.sum_cons, ih]
    have h : 1 ≤ 2 ^ k := Nat.one_le_two_pow
    have h2 : 2 ^ (k + 1) = 2 * 2 ^ k := by ring
    rw [h2]
    zify [h, show 1 ≤ 2 * 2 ^ k by omega]
    ring

/-- The loop, characterised: it makes `k` failed attempts with their waits and
ends with attempt `i + k`, either returning its response or, when that was the
last attempt allowed, throwing its failure. -/
theorem fetchLoop_spec (fetch : Nat → FetchOutcome) (retries : Nat) :
    ∀ (fuel i b : Nat) (trace : List Effect), i + fuel = retries → 0 < fuel →
      ∃ k, k < fuel ∧
        (∀ j, j < k → ∃ e, attempt (i + j) (fetch (i + j)) = .error e) ∧
        (fetchLoop fetch retries fuel i b trace).trace = trace ++ retryTrace b k ∧
        ((∃ r, attempt (i + k) (fetch (i + k)) = .ok r ∧
            (fetchLoop fetch retries fuel i b trace).completion = .returned r) ∨
         (∃ e, attempt (i + k) (fetch (i + k)) = .error e ∧ k + 1 = fuel ∧
            (fetchLoop fetch retries fuel i b trace).completion = .threw e)) := by
  intro fuel
  induction fuel with
  | zero => intro i b trace _ h; omega
  | succ fuel ih =>
    intro i b trace hi _
    have hlt : i < retries := by omega
    cases hatt : attempt i (fetch i) with
    | ok r =>
      refine ⟨0, by omega, by intro j hj; omega, ?_, Or.inl ⟨r, by simpa using hatt, ?_⟩⟩
      · simp [fetchLoop, hlt, hatt, retryTrace]
      · simp [fetchLoop, hlt, hatt]
    | error e =>
      by_cases hlast : i = retries - 1
      · have hf : fuel = 0 := by omega
        refine ⟨0, by omega, by intro j hj; omega, ?_,
          Or.inr ⟨e, by simpa using hatt, by omega, ?_⟩⟩
        · simp only [fetchLoop, if_pos hlt, hatt, if_pos hlast, retryTrace]
        · simp only [fetchLoop, if_pos hlt, hatt, if_pos hlast]
      · have hf : 0 < fuel := by omega
        obtain ⟨k, hk, hfail, htr, hend⟩ :=
          ih (i + 1) (b * 2) (trace ++ [.fetchCall, .wait b]) (by omega) hf
        have hrun : fetchLoop fetch retries (fuel + 1) i b trace =
            fetchLoop fetch retries fuel (i + 1) (b * 2) (trace ++ [.fetchCall, .wait b]) := by
          simp only [fetchLoop, if_pos hlt, hatt, if_neg hlast]
        have hidx : ∀ j, i + 1 + j = i + (j + 1) := by intro j; omega
        refine ⟨k + 1, by omega, ?_, ?_, ?_⟩
        · intro j hj
          cases j with
          | zero => exact ⟨e, by simpa using hatt⟩
          | succ j =>
            obtain ⟨e', he'⟩ := hfail j (by omega)
            exact ⟨e', by rw [← hidx]; exact he'⟩
        · rw [hrun, htr]; simp [retryTrace]
        · rw [hrun, ← hidx]
          rcases hend with ⟨r, h1, h2⟩ | ⟨e', h1, h2, h3⟩
          · exact Or.inl ⟨r, h1, h2⟩
          · exact Or.inr ⟨e', h1, by omega, h3⟩

theorem attempt_response_error_iff (i : Nat) (r : Response) :
    (∃ e, attempt i (.response r) = .error e) ↔ (r.status = 429 ∨ 500 ≤ r.status) := by
  unfold attempt Response.ok
  by_cases h1 : 200 ≤ r.status <;> by_cases h2 : r.status ≤ 299 <;>
    by_cases h3 : r.status = 429 <;> by_cases h4 : r.status < 500 <;>
    simp [h1, h2, h3, h4] <;> omega

theorem attempt_of_specRetryable (i : Nat) (o : FetchOutcome) (h : specRetryable o) :
    attempt i o = .error ⟨i, thrownBy o⟩ := by
  cases o with
  | rejected c => rfl
  | response r =>
    have h' : r.status = 429 ∨ (500 ≤ r.status ∧ r.status < 600) := h
    unfold attempt Response.ok thrownBy
    by_cases h1 : 200 ≤ r.status <;> by_cases h2 : r.status ≤ 299 <;>
      by_cases h3 : r.status = 429 <;> by_cases h4 : r.status < 500 <;>
      simp [h1, h2, h3, h4] <;> omega

/-- C2, the claim as stated fails: a response with status 600 is outside the
class "429 or [500,600)", yet the attempt that receives it throws, and the
client waits and invokes `fetch` a second time instead of returning it. -/
theorem retry_classification_counterexample :
    ¬ specRetryableStatus 600 ∧
    attempt 0 (.response ⟨600, 0⟩) = .error ⟨0, .apiError 600⟩ ∧
    fetchWithRetryDefault (mockFetch [600, 200]) =
      ⟨.returned ⟨200, 1⟩, [.fetchCall, .wait 1000, .fetchCall]⟩ := by
  refine ⟨by decide, rfl, by decide⟩

/-- C2, amended: the attempt that receives a response throws (and so is retried
while attempts remain) if and only if the status is 429 or at least 500; a first
response with any other status is returned by that very attempt, with exactly
one `fetch` invocation and no wait; a first response with status 429 or at least
500 is followed by the initial wait and a second invocation when a second
attempt is allowed. -/
theorem retry_classification (fetch : Nat → FetchOutcome) (R B : Nat) (r : Response) :
    (∀ i, (∃ e, attempt i (.response r) = .error e) ↔ (r.status = 429 ∨ 500 ≤ r.status)) ∧
    (1 ≤ R → fetch 0 = .response r → ¬ (r.status = 429 ∨ 500 ≤ r.status) →
      fetchWithRetry fetch R B = ⟨.returned r, [.fetchCall]⟩) ∧
    (2 ≤ R → fetch 0 = .response r → (r.status = 429 ∨ 500 ≤ r.status) →
      ∃ rest, (fetchWithRetry fetch R B).trace = .fetchCall :: .wait B :: .fetchCall :: rest) := by
  refine ⟨fun i => attempt_response_error_iff i r, ?_, ?_⟩
  · intro hR h0 hn
    have hok : attempt 0 (fetch 0) = .ok r := by
      rw [h0]
      cases hatt : attempt 0 (.response r) with
      | error e => exact absurd ((attempt_response_error_iff 0 r).1 ⟨e, hatt⟩) hn
      | ok r' =>
        simp only [attempt] at hatt
        split_ifs at hatt <;> simp_all
    obtain ⟨n, rfl⟩ : ∃ n, R = n + 1 := ⟨R - 1, by omega⟩
    simp only [fetchWithRetry, fetchLoop, Nat.zero_lt_succ, if_true, hok, List.nil_append]
  · intro hR h0 hy
    obtain ⟨e, he⟩ := (attempt_response_error_iff 0 r).2 hy
    obtain ⟨n, rfl⟩ : ∃ n, R = n + 2 := ⟨R - 2, by omega⟩
    obtain ⟨k, _, _, htr, _⟩ :=
      fetchLoop_spec fetch (n + 2) (n + 1) 1 (B * 2) [.fetchCall, .wait B] (by omega) (by omega)
    have hrun : fetchWithRetry fetch (n + 2) B =
        fetchLoop fetch (n + 2) (n + 1) 1 (B * 2) [.fetchCall, .wait B] := by
      have hne : ¬ (0 = n + 2 - 1) := by omega
      simp only [fetchWithRetry, fetchLoop, Nat.zero_lt_succ, if_true, h0, he, if_neg hne,
        List.nil_append, Nat.zero_add]
    rw [hrun, htr]
    cases k with
    | zero => exact ⟨[], rfl⟩
    | succ k => exact ⟨.wait (B * 2) :: retryTrace (B * 2 * 2) k, rfl⟩

/-- Witness of `retry_classification`: a first response 404 is handed back by
the first attempt; a first response 503 is followed by a wait and a second
invocation. -/
theorem retry_classification_witness :
    fetchWithRetry (mockFetch [404]) 3 1000 = ⟨.returned ⟨404, 0⟩, [.fetchCall]⟩ ∧
    ∃ rest, (fetchWithRetry (mockFetch [503, 200]) 3 1000).trace =
      .fetchCall :: .wait 1000 :: .fetchCall :: rest :=
  ⟨(retry_classification (mockFetch [404]) 3 1000 ⟨404, 0⟩).2.1
      (by decide) (by decide) (by decide),
    (retry_classification (mockFetch [503, 200]) 3 1000 ⟨503, 0⟩).2.2
      (by decide) (by decide) (by decide)⟩

/-- C3: with `R ≥ 1` attempts allowed the client reaches a terminal outcome
after `k + 1` invocations for some `k ≤ R - 1`; it has then waited `k` times,
the `j`-th wait being `B * 2^j`, so the delays sum to `B * (2^k - 1)`. With the
defaults, 503, 503, 200 gives three invocations and the delays 1000 and 2000. -/
theorem backoff_total (fetch : Nat → FetchOutcome) (R B : Nat) (hR : 1 ≤ R) :
    (fetchWithRetry fetch R B).completion ≠ .undefined ∧
    1 ≤ invocations (fetchWithRetry fetch R B).trace ∧
    invocations (fetchWithRetry fetch R B).trace - 1 ≤ R - 1 ∧
    delays (fetchWithRetry fetch R B).trace =
      (List.range (invocations (fetchWithRetry fetch R B).trace - 1)).map (fun j => B * 2 ^ j) ∧
    (delays (fetchWithRetry fetch R B).trace).sum =
      B * (2 ^ (invocations (fetchWithRetry fetch R B).trace - 1) - 1) ∧
    fetchWithRetryDefault (mockFetch [503, 503, 200]) =
      ⟨.returned ⟨200, 2⟩, [.fetchCall, .wait 1000, .fetchCall, .wait 2000, .fetchCall]⟩ := by
  obtain ⟨k, hk, _, htr, hend⟩ := fetchLoop_spec fetch R R 0 B [] (by omega) (by omega)
  have htr' : (fetchWithRetry fetch R B).trace = retryTrace B k := by
    simpa [fetchWithRetry] using htr
  have hinv : invocations (fetchWithRetry fetch R B).trace = k + 1 := by
    rw [htr', invocations_retryTrace]
  refine ⟨?_, by omega, by omega, ?_, ?_, by decide⟩
  · rcases hend with ⟨r, _, h⟩ | ⟨e, _, _, h⟩ <;>
      · unfold fetchWithRetry; rw [h]; simp
  · rw [hinv, htr', delays_retryTrace]; rfl
  · rw [hinv, htr', sum_delays_retryTrace]; rfl

/-- Witness of `backoff_total`: the defaults against 503, 503, 200. -/
theorem backoff_total_witness :
    invocations (fetchWithRetry (mockFetch [503, 503, 200]) 3 1000).trace = 3 ∧
    (delays (fetchWithRetry (mockFetch [503, 503, 200]) 3 1000).trace).sum =
      1000 * (2 ^ (invocations (fetchWithRetry (mockFetch [503, 503, 200]) 3 1000).trace - 1) - 1) :=
  ⟨by decide, (backoff_total (mockFetch [503, 503, 200]) 3 1000 (by decide)).2.2.2.2.1⟩

/-- C4: with `R ≥ 1` attempts allowed the client invokes `fetch` at most `R`
times and ends by returning a response or by throwing; when the first `R`
attempts are all retryable (transport failure, 429 or 5xx) it invokes `fetch`
exactly `R` times and throws the value produced by attempt `R - 1`, the last. -/
theorem retry_exhaustion (fetch : Nat → FetchOutcome) (R B : Nat) (hR : 1 ≤ R) :
    invocations (fetchWithRetry fetch R B).trace ≤ R ∧
    ((∃ r, (fetchWithRetry fetch R B).completion = .returned r) ∨
     (∃ f, (fetchWithRetry fetch R B).completion = .threw f)) ∧
    ((∀ j, j < R → specRetryable (fetch j)) →
      invocations (fetchWithRetry fetch R B).trace = R ∧
      (fetchWithRetry fetch R B).completion = .threw ⟨R - 1, thrownBy (fetch (R - 1))⟩) := by
  obtain ⟨k, hk, hfail, htr, hend⟩ := fetchLoop_spec fetch R R 0 B [] (by omega) (by omega)
  have htr' : (fetchWithRetry fetch R B).trace = retryTrace B k := by
    simpa [fetchWithRetry] using htr
  have hinv : invocations (fetchWithRetry fetch R B).trace = k + 1 := by
    rw [htr', invocations_retryTrace]
  have hcomp : ∀ c, (fetchLoop fetch R R 0 B []).completion = c →
      (fetchWithRetry fetch R B).completion = c := fun c h => h
  refine ⟨by omega, ?_, ?_⟩
  · rcases hend with ⟨r, _, h⟩ | ⟨e, _, _, h⟩
    · exact Or.inl ⟨r, hcomp _ h⟩
    · exact Or.inr ⟨e, hcomp _ h⟩
  · intro hall
    have hkR : k + 1 = R := by
      rcases hend with ⟨r, h, _⟩ | ⟨e, _, h, _⟩
      · have := attempt_of_specRetryable (0 + k) _ (hall (0 + k) (by omega))
        rw [this] at h; cases h
      · exact h
    refine ⟨by omega, ?_⟩
    rcases hend with ⟨r, h, _⟩ | ⟨e, h, _, hc⟩
    · have := attempt_of_specRetryable (0 + k) _ (hall (0 + k) (by omega))
      rw [this] at h; cases h
    · have := attempt_of_specRetryable (0 + k) _ (hall (0 + k) (by omega))
      rw [this] at h
      have hk' : 0 + k = R - 1 := by omega
      rw [hk'] at h
      cases h
      exact hcomp _ hc

/-- Witness of `retry_exhaustion`: 503, a transport failure and 429 exhaust the
three default attempts, and the value thrown is that of the third. -/
theorem retry_exhaustion_witness :
    invocations (fetchWithRetry (fun k => if k = 1 then .rejected 7 else
      .response ⟨if k = 0 then 503 else 429, k⟩) 3 1000).trace = 3 ∧
    (fetchWithRetry (fun k => if k = 1 then .rejected 7 else
      .response ⟨if k = 0 then 503 else 429, k⟩) 3 1000).completion =
        .threw ⟨2, .apiError 429⟩ :=
  (retry_exhaustion (fun k => if k = 1 then .rejected 7 else
      .response ⟨if k = 0 then 503 else 429, k⟩) 3 1000 (by decide)).2.2
    (by intro j hj; interval_cases j <;> simp [specRetryable, specRetryableStatus])

/-! ## Rendering: filter, pagination -/

theorem includes_iff_infix (s t : Str) : includes s t = true ↔ t <:+: s := by
  induction s with
  | nil => simp [includes]
  | cons c s ih => simp [includes, ih, List.infix_cons_iff]

theorem ceilDiv_le_iff (a n : Nat) : ceilDiv a 20 ≤ n ↔ a ≤ 20 * n := by
  unfold ceilDiv
  omega

theorem ceilDiv_eq_ceil (a : Nat) : ceilDiv a 20 = ⌈(a : ℚ) / 20⌉₊ := by
  apply eq_of_forall_ge_iff
  intro n
  rw [ceilDiv_le_iff, Nat.ceil_le, div_le_iff₀ (by norm_num : (0 : ℚ) < 20)]
  constructor
  · intro h
    have : ((a : ℕ) : ℚ) ≤ ((20 * n : ℕ) : ℚ) := by exact_mod_cast h
    push_cast at this
    linarith
  · intro h
    have : ((a : ℕ) : ℚ) ≤ ((20 * n : ℕ) : ℚ) := by push_cast; linarith
    exact_mod_cast this

theorem filteredCoins_eq (js : Builtins) (pg : Page) :
    filteredCoins js pg =
      pg.state.allCoins.filter fun c => decide (specMatches js pg.filterValue c) := by
  unfold filteredCoins
  apply List.filter_congr
  intro c _
  simp only [specMatches, ← includes_iff_infix]
  cases includes (js.toLowerCase c.name) (js.toLowerCase pg.filterValue) <;>
    cases includes (js.toLowerCase c.symbol) (js.toLowerCase pg.filterValue) <;> simp

theorem slice_pages {α : Type} (xs : List α) (d : Nat) (hd : 0 < d) :
    ∀ n, ((List.range n).map fun q => slice xs (q * d) ((q + 1) * d)).flatten = xs.take (n * d) := by
  intro n
  induction n with
  | zero => simp
  | succ n ih =>
    rw [List.range_succ, List.map_append, List.flatten_append, ih]
    simp only [List.map_cons, List.map_nil, List.flatten_cons, List.flatten_nil, List.append_nil, slice]
    have h1 : (n + 1) * d - n * d = d := by
      rw [Nat.add_mul, Nat.one_mul]; omega
    rw [h1, Nat.add_mul, Nat.one_mul, List.take_add]

/-- C1, evaluated where the code leaves the range: 41 coins of which 21 match
the term `A`. After the filter and one click on "next" the page is 2 of 2 and
the controls are rendered, the "next" button only styled as disabled. A second
click passes the guard of `handlePaginationClick`, which compares with the
3 pages of the unfiltered list, and the page becomes 3, above
`max(1, ceil(21 / 20)) = 2`; the table then shows the placeholder. -/
theorem page_range_violated :
    (run asciiBuiltins (pageWithCoins fortyOneCoins)
        [.filterChanged [65], .paginationClicked (some .next)]).pagination =
      some ⟨"", 2, 2, "opacity-50 cursor-not-allowed"⟩ ∧
    (run asciiBuiltins (pageWithCoins fortyOneCoins)
        [.filterChanged [65], .paginationClicked (some .next),
          .paginationClicked (some .next)]).state.currentPage = 3 ∧
    (filteredCoins asciiBuiltins (run asciiBuiltins (pageWithCoins fortyOneCoins)
        [.filterChanged [65], .paginationClicked (some .next),
          .paginationClicked (some .next)])).length = 21 ∧
    max 1 (ceilDiv 21 20) = 2 ∧
    (run asciiBuiltins (pageWithCoins fortyOneCoins)
        [.filterChanged [65], .paginationClicked (some .next),
          .paginationClicked (some .next)]).table = some .nothingFound := by
  refine ⟨by decide, by decide, by decide, by decide, by decide⟩

/-- C6: on a page with page size 20 and current page `p ≥ 1`, `render` hands
to `renderTable` exactly the elements at positions `(p-1)*20 .. p*20-1` of the
sublist (in the original order) of the coins whose lower-cased name or symbol
contains the lower-cased search term, and to `renderPaginationControls` the
length of that sublist; a page has at most 20 rows, and the pages
`1 .. ceil(filtered/20)` concatenated are the filtered list. -/
theorem filter_then_paginate (js : Builtins) (pg : Page) (h20 : pg.state.coinsPerPage = 20)
    (hp : 1 ≤ pg.state.currentPage) :
    filteredCoins js pg =
      pg.state.allCoins.filter (fun c => decide (specMatches js pg.filterValue c)) ∧
    (∀ k, (paginatedCoins js pg)[k]? =
      if k < 20 then
        (pg.state.allCoins.filter fun c => decide (specMatches js pg.filterValue c))[
          (pg.state.currentPage - 1) * 20 + k]?
      else none) ∧
    (paginatedCoins js pg).length ≤ 20 ∧
    render js pg =
      renderPaginationControls
        (pg.state.allCoins.filter fun c => decide (specMatches js pg.filterValue c)).length
        (renderTable (paginatedCoins js pg) pg) ∧
    ((List.range (ceilDiv
        (pg.state.allCoins.filter fun c => decide (specMatches js pg.filterValue c)).length 20)).map
        fun q => paginatedCoins js (atPage pg (q + 1))).flatten =
      pg.state.allCoins.filter (fun c => decide (specMatches js pg.filterValue c)) := by
  have hf : ∀ q, filteredCoins js (atPage pg q) =
      pg.state.allCoins.filter (fun c => decide (specMatches js pg.filterValue c)) :=
    fun q => filteredCoins_eq js _
  have hpag : ∀ q, paginatedCoins js (atPage pg q) =
      slice (pg.state.allCoins.filter fun c => decide (specMatches js pg.filterValue c))
        ((q - 1) * 20) (q * 20) := by
    intro q
    unfold paginatedCoins
    rw [hf q]
    simp only [atPage, h20]
  have hself : atPage pg pg.state.currentPage = pg := rfl
  have hlen : pg.state.currentPage * 20 - (pg.state.currentPage - 1) * 20 = 20 := by omega
  have hpag' := hpag pg.state.currentPage
  rw [hself] at hpag'
  refine ⟨filteredCoins_eq js pg, ?_, ?_, ?_, ?_⟩
  · intro k
    rw [hpag', slice, hlen]
    by_cases hk : k < 20
    · rw [if_pos hk, List.getElem?_take_of_lt hk, List.getElem?_drop]
    · rw [if_neg hk]
      exact List.getElem?_take_eq_none (by omega)
  · rw [hpag', slice, hlen]
    exact (List.length_take_le _ _)
  · unfold render
    rw [filteredCoins_eq js pg]
  · have h := slice_pages
      (pg.state.allCoins.filter fun c => decide (specMatches js pg.filterValue c)) 20
      (by norm_num)
      (ceilDiv
        (pg.state.allCoins.filter fun c => decide (specMatches js pg.filterValue c)).length 20)
    have hfun : (fun q => paginatedCoins js (atPage pg (q + 1))) =
        fun q => slice
          (pg.state.allCoins.filter fun c => decide (specMatches js pg.filterValue c)) (q * 20)
          ((q + 1) * 20) := by
      funext q
      rw [hpag (q + 1)]
      rfl
    rw [hfun, h]
    apply List.take_of_length_le
    have := (ceilDiv_le_iff
      (pg.state.allCoins.filter fun c => decide (specMatches js pg.filterValue c)).length
      (ceilDiv
        (pg.state.allCoins.filter fun c => decide (specMatches js pg.filterValue c)).length
        20)).1 le_rfl
    omega

/-- Witness of `filter_then_paginate`: page 2 of the 21 coins that match `A`
among 41 is the single twenty-first match. -/
theorem filter_then_paginate_witness :
    (paginatedCoins asciiBuiltins (pageAt fortyOneCoins [65] 2)).length ≤ 20 ∧
    paginatedCoins asciiBuiltins (pageAt fortyOneCoins [65] 2) = [⟨[1], [97], [97]⟩] :=
  ⟨(filter_then_paginate asciiBuiltins (pageAt fortyOneCoins [65] 2) rfl (by decide)).2.2.1,
    by decide⟩

/-- C7: with the page size 20, `renderPaginationControls(totalItems)` leaves
non-empty controls exactly when `ceil(totalItems / 20) > 1`; the previous button
then carries the disabled classes exactly when the current page is 1, and the
next button exactly when the current page is `ceil(totalItems / 20)`. -/
theorem pagination_visibility (pg : Page) (totalItems : Nat)
    (h20 : pg.state.coinsPerPage = 20) :
    ((renderPaginationControls totalItems pg).pagination ≠ none ↔
      1 < ⌈(totalItems : ℚ) / 20⌉₊) ∧
    (∀ c, (renderPaginationControls totalItems pg).pagination = some c →
      (c.prevDisabled = disabledClass ↔ pg.state.currentPage = 1) ∧
      (c.prevDisabled = disabledClass ∨ c.prevDisabled = "") ∧
      (c.nextDisabled = disabledClass ↔ pg.state.currentPage = ⌈(totalItems : ℚ) / 20⌉₊) ∧
      (c.nextDisabled = disabledClass ∨ c.nextDisabled = "") ∧
      c.page = pg.state.currentPage ∧ c.totalPages = ⌈(totalItems : ℚ) / 20⌉₊) := by
  rw [← ceilDiv_eq_ceil]
  have hne : disabledClass ≠ "" := by decide
  unfold renderPaginationControls paginationHtml
  rw [h20]
  by_cases hle : ceilDiv totalItems 20 ≤ 1
  · simp only [if_pos hle]
    exact ⟨by simp; omega, by intro c hc; cases hc⟩
  · simp only [if_neg hle]
    refine ⟨by simp; omega, ?_⟩
    intro c hc
    simp only [Option.some.injEq] at hc
    subst hc
    simp only [and_true, true_and]
    refine ⟨?_, ?_, ?_, ?_⟩
    · by_cases h : pg.state.currentPage = 1 <;> simp [h, disabledClass]
    · by_cases h : pg.state.currentPage = 1 <;> simp [h, disabledClass]
    · by_cases h : pg.state.currentPage = ceilDiv totalItems 20 <;> simp [h, disabledClass]
    · by_cases h : pg.state.currentPage = ceilDiv totalItems 20 <;> simp [h, disabledClass]

/-- Witness of `pagination_visibility`: 100 items on page 5 give controls with
the next button disabled and the previous one not. -/
theorem pagination_visibility_witness :
    (renderPaginationControls 100 (pageAt [] [] 5)).pagination =
      some ⟨"", 5, 5, disabledClass⟩ ∧
    ((renderPaginationControls 100 (pageAt [] [] 5)).pagination ≠ none ↔
      1 < ⌈((100 : ℕ) : ℚ) / 20⌉₊) ∧
    (disabledClass = disabledClass ↔
      (pageAt [] [] 5).state.currentPage = ⌈((100 : ℕ) : ℚ) / 20⌉₊) :=
  ⟨by decide, (pagination_visibility (pageAt [] [] 5) 100 rfl).1,
    ((pagination_visibility (pageAt [] [] 5) 100 rfl).2 ⟨"", 5, 5, disabledClass⟩
      (by decide)).2.2.1⟩

/-- C8: when `handleCurrencyChange` returns, `state.currentCurrency` is the new
value, `state.currentPage` is 1 and both formatters carry the upper-cased new
currency; it returns whenever that upper-cased value is a well-formed currency
code. -/
theorem currency_change (js : Builtins) (pg : Page) (value : Str) :
    (isWellFormedCurrencyCode (js.toUpperCase value) = true →
      ∃ pg', handleCurrencyChange js value pg = .ok pg') ∧
    (∀ pg', handleCurrencyChange js value pg = .ok pg' →
      pg'.state.currentCurrency = value ∧ pg'.state.currentPage = 1 ∧
      pg'.state.currencyFormatter = some ⟨js.toUpperCase value, false⟩ ∧
      pg'.state.marketCapFormatter = some ⟨js.toUpperCase value, true⟩) := by
  constructor
  · intro hw
    simp [handleCurrencyChange, setupFormatters, hw]
  · intro pg' h
    unfold handleCurrencyChange setupFormatters at h
    by_cases hw : isWellFormedCurrencyCode (js.toUpperCase value) = true
    · simp only [hw, if_true] at h
      cases h
      cases hsel : pg.state.selectedCoin <;>
        simp [fetchCoinData, showLoader, fetchChartData, destroyPriceChart, hsel]
      cases pg.state.priceChart <;> simp
    · simp only [hw] at h
      cases h

/-- Witness of `currency_change`: switching from `usd` on page 3 to `eur`. -/
theorem currency_change_witness :
    ∃ pg', handleCurrencyChange asciiBuiltins [101, 117, 114] (pageAt fortyOneCoins [] 3) =
        .ok pg' ∧
      pg'.state.currentCurrency = [101, 117, 114] ∧ pg'.state.currentPage = 1 ∧
      pg'.state.currencyFormatter = some ⟨[69, 85, 82], false⟩ ∧
      pg'.state.marketCapFormatter = some ⟨[69, 85, 82], true⟩ :=
  Exists.elim
    ((currency_change asciiBuiltins (pageAt fortyOneCoins [] 3) [101, 117, 114]).1 (by decide))
    fun pg' h => ⟨pg', h,
      (currency_change asciiBuiltins (pageAt fortyOneCoins [] 3) [101, 117, 114]).2 pg' h⟩

/-! ## Selection, modal and chart lifecycle -/

@[simp] theorem render_state (js : Builtins) (pg : Page) : (render js pg).state = pg.state := by
  unfold render renderPaginationControls renderTable
  split <;> rfl

@[simp] theorem destroyPriceChart_state (pg : Page) : (destroyPriceChart pg).state = pg.state := by
  unfold destroyPriceChart
  split <;> rfl

@[simp] theorem fetchChartData_state (pg : Page) : (fetchChartData pg).state = pg.state := by
  unfold fetchChartData
  split
  · rfl
  · simp

/-- What the selection invariant reads of a page. -/
theorem step_selectedCoin (js : Builtins) (pg : Page) (e : Event) :
    (step js pg e).state.selectedCoin = none ↔
      pg.state.selectedCoin = none ∧ e.selects = false := by
  cases e with
  | filterChanged term => simp [step, handleFilter, Event.selects]
  | currencyChanged value =>
    simp only [step, handleCurrencyChange, setupFormatters, Event.selects, and_true]
    split_ifs <;> simp [fetchCoinData, showLoader]
    split_ifs <;> simp
  | chartPeriodChanged days =>
    cases days <;> simp [step, handleChartPeriodChange, Event.selects]
  | rowClicked row =>
    cases row <;> simp [step, handleRowClick, Event.selects, openModal, fetchCoinDetails]
  | paginationClicked button =>
    cases button with
    | none => simp [step, handlePaginationClick, Event.selects]
    | some a =>
      simp only [step, handlePaginationClick, Event.selects, and_true]
      split_ifs <;> simp
  | modalDismissed => simp [step, closeModal, Event.selects]
  | openTimerFired =>
    simp only [step, openModalTimer, Event.selects, and_true]
    split_ifs <;> simp
  | closeTimerFired =>
    simp only [step, closeModalTimer, Event.selects, and_true]
    split_ifs <;> simp
  | chartFetchSettled k result =>
    simp only [step, chartFetchDone, Event.selects, and_true]
    split_ifs
    · cases result with
      | none => simp
      | some prices =>
        cases hsel : pg.state.selectedCoin with
        | none => simp [renderChart, hsel]
        | some coin =>
          simp only [Option.bind, renderChart, hsel]
          split_ifs <;> simp [hsel]
    · rfl
  | marketsFetchSettled k result =>
    simp only [step, marketsFetchDone, Event.selects, and_true]
    split_ifs
    · cases result <;> simp [showLoader, showError]
    · rfl

theorem render_modalClosed (js : Builtins) (pg : Page) :
    modalClosed (render js pg) ↔ modalClosed pg := by
  unfold render renderPaginationControls renderTable modalClosed
  split <;> rfl

theorem fetchChartData_modalClosed (pg : Page) :
    modalClosed (fetchChartData pg) ↔ modalClosed pg := by
  unfold fetchChartData destroyPriceChart modalClosed
  split
  · rfl
  · dsimp only
    split <;> rfl

theorem step_modalClosed (js : Builtins) (pg : Page) (e : Event) (he : e.selects = false)
    (hc : modalClosed pg) : modalClosed (step js pg e) := by
  cases e with
  | filterChanged term =>
    simp only [step, handleFilter, render_modalClosed]
    exact hc
  | currencyChanged value =>
    simp only [step, handleCurrencyChange, setupFormatters]
    split_ifs
    · dsimp only
      split_ifs
      · rw [fetchChartData_modalClosed]; exact hc
      · exact hc
    · exact hc
  | chartPeriodChanged days =>
    cases days with
    | none => exact hc
    | some d =>
      simp only [step, handleChartPeriodChange, fetchChartData_modalClosed]
      exact hc
  | rowClicked row =>
    cases row with
    | none => exact hc
    | some sel => simp [Event.selects] at he
  | paginationClicked button =>
    cases button with
    | none => exact hc
    | some a =>
      simp only [step, handlePaginationClick]
      split_ifs
      · exact (render_modalClosed js _).2 ((render_modalClosed js _).2 hc)
      · exact (render_modalClosed js _).2 hc
      · exact (render_modalClosed js _).2 hc
      · exact hc
  | modalDismissed =>
    obtain ⟨h1, _, _, h4⟩ := hc
    exact ⟨h1, rfl, rfl, h4⟩
  | openTimerFired =>
    obtain ⟨h1, h2, h3, h4⟩ := hc
    simp only [step, openModalTimer, h4, Nat.lt_irrefl, if_false]
    exact ⟨h1, h2, h3, h4⟩
  | closeTimerFired =>
    obtain ⟨h1, h2, h3, h4⟩ := hc
    simp only [step, closeModalTimer]
    split_ifs
    · exact ⟨rfl, h2, h3, h4⟩
    · exact ⟨h1, h2, h3, h4⟩
  | chartFetchSettled k result =>
    simp only [step, chartFetchDone]
    split_ifs
    · cases result with
      | none => exact hc
      | some prices =>
        cases hsel : pg.state.selectedCoin with
        | none =>
          simp only [Option.bind, renderChart, hsel]
          exact hc
        | some coin =>
          simp only [Option.bind, renderChart, hsel]
          split_ifs <;> exact hc
    · exact hc
  | marketsFetchSettled k result =>
    simp only [step, marketsFetchDone]
    split_ifs
    · cases result with
      | none => exact hc
      | some coins =>
        have := (render_modalClosed js
          { pg with pendingMarkets := pg.pendingMarkets.eraseIdx k,
                    state := { pg.state with allCoins := coins } }).2 hc
        exact this
    · exact hc

theorem run_append_singleton (js : Builtins) (pg : Page) (events : List Event) (e : Event) :
    run js pg (events ++ [e]) = step js (run js pg events) e := by
  simp [run, List.foldl_append]

/-- What a filter, pagination or currency intent does to the coin list, the
page size and the page number. -/
theorem step_paging (js : Builtins) (pg : Page) (e : Event) (he : e.isPagingIntent = true) :
    (step js pg e).state.allCoins = pg.state.allCoins ∧
    (step js pg e).state.coinsPerPage = pg.state.coinsPerPage ∧
    ((1 ≤ pg.state.currentPage ∧
        pg.state.currentPage ≤ max 1 (ceilDiv pg.state.allCoins.length pg.state.coinsPerPage)) →
      1 ≤ (step js pg e).state.currentPage ∧
        (step js pg e).state.currentPage ≤
          max 1 (ceilDiv pg.state.allCoins.length pg.state.coinsPerPage)) := by
  cases e with
  | filterChanged term =>
    simp only [step, handleFilter, render_state]
    exact ⟨trivial, trivial, fun _ => ⟨le_rfl, le_max_left _ _⟩⟩
  | currencyChanged value =>
    simp only [step, handleCurrencyChange, setupFormatters]
    split_ifs
    · dsimp only
      split_ifs
      · simp only [fetchChartData_state]
        exact ⟨rfl, rfl, fun _ => ⟨le_rfl, le_max_left _ _⟩⟩
      · exact ⟨rfl, rfl, fun _ => ⟨le_rfl, le_max_left _ _⟩⟩
    · exact ⟨rfl, rfl, fun _ => ⟨le_rfl, le_max_left _ _⟩⟩
  | paginationClicked button =>
    cases button with
    | none => exact ⟨rfl, rfl, fun h => h⟩
    | some a =>
      simp only [step, handlePaginationClick]
      split_ifs with h1 h2 h3
      · simp only [render_state]
        simp only [render_state] at h2
        refine ⟨trivial, trivial, fun h => ⟨by omega, ?_⟩⟩
        exact le_trans (by omega) (le_max_right _ _)
      · simp only [render_state]
        refine ⟨trivial, trivial, fun h => ⟨by omega, ?_⟩⟩
        exact le_trans (Nat.sub_le _ _) h.2
      · simp only [render_state]
        refine ⟨trivial, trivial, fun h => ⟨by omega, ?_⟩⟩
        exact le_trans (by omega) (le_max_right _ _)
      · exact ⟨rfl, rfl, fun h => h⟩
  | chartPeriodChanged _ => simp [Event.isPagingIntent] at he
  | rowClicked _ => simp [Event.isPagingIntent] at he
  | modalDismissed => simp [Event.isPagingIntent] at he
  | openTimerFired => simp [Event.isPagingIntent] at he
  | closeTimerFired => simp [Event.isPagingIntent] at he
  | chartFetchSettled _ _ => simp [Event.isPagingIntent] at he
  | marketsFetchSettled _ _ => simp [Event.isPagingIntent] at he

/-- The range the page number does stay in under filter, pagination and
currency intents: between 1 and the page count of the unfiltered list. -/
theorem page_range_unfiltered (js : Builtins) (coins : List Coin) (events : List Event)
    (h : ∀ e ∈ events, e.isPagingIntent = true) :
    (run js (pageWithCoins coins) events).state.allCoins = coins ∧
    (run js (pageWithCoins coins) events).state.coinsPerPage = 20 ∧
    1 ≤ (run js (pageWithCoins coins) events).state.currentPage ∧
    (run js (pageWithCoins coins) events).state.currentPage ≤ max 1 (ceilDiv coins.length 20) := by
  induction events using List.reverseRecOn with
  | nil => exact ⟨rfl, rfl, le_rfl, le_max_left _ _⟩
  | append_singleton events e ih =>
    rw [run_append_singleton]
    obtain ⟨h1, h2, h3, h4⟩ := ih (fun x hx => h x (List.mem_append_left _ hx))
    obtain ⟨s1, s2, s3⟩ := step_paging js (run js (pageWithCoins coins) events) e
      (h e (List.mem_append_right _ (List.mem_singleton_self e)))
    rw [h1] at s1 s3
    rw [h2] at s2 s3
    exact ⟨s1, s2, s3 ⟨h3, h4⟩⟩

/-- C10, the claim as stated fails: after a click on the row of a coin, the
opening callback, a dismissal of the modal and the closing callback, the modal
is closed again and `state.selectedCoin` is still the clicked coin, not null. -/
theorem selection_modal_counterexample :
    modalClosed (run asciiBuiltins initialPage
      [.rowClicked (some btcRow), .openTimerFired, .modalDismissed, .closeTimerFired]) ∧
    (run asciiBuiltins initialPage
      [.rowClicked (some btcRow), .openTimerFired, .modalDismissed,
        .closeTimerFired]).state.selectedCoin = some btcRow ∧
    (run asciiBuiltins initialPage
      [.rowClicked (some btcRow), .modalDismissed]).state.selectedCoin ≠ none := by
  refine ⟨by decide, by decide, by decide⟩

/-- C10, amended: over every sequence of events from the initial page,
`state.selectedCoin` is null exactly as long as no click has hit a table row,
and while it is null the modal is closed; a dismissal never resets the
selection, so a closed modal does not imply a null selection. -/
theorem selection_modal (js : Builtins) (events : List Event) :
    ((run js initialPage events).state.selectedCoin = none ↔
      ∀ e ∈ events, e.selects = false) ∧
    ((run js initialPage events).state.selectedCoin = none →
      modalClosed (run js initialPage events)) := by
  induction events using List.reverseRecOn with
  | nil =>
    refine ⟨by simp [run, initialPage, initialState], fun _ => ?_⟩
    exact ⟨rfl, rfl, rfl, rfl⟩
  | append_singleton events e ih =>
    rw [run_append_singleton]
    constructor
    · rw [step_selectedCoin, ih.1]
      simp only [List.mem_append, List.mem_singleton]
      constructor
      · rintro ⟨h1, h2⟩ x (hx | rfl)
        · exact h1 x hx
        · exact h2
      · intro h
        exact ⟨fun x hx => h x (Or.inl hx), h e (Or.inr rfl)⟩
    · intro h
      obtain ⟨h1, h2⟩ := (step_selectedCoin js _ e).1 h
      exact step_modalClosed js _ e h2 (ih.2 h1)

/-- Witness of `selection_modal`: before any row is clicked the selection is
null and the modal closed, whatever else happened. -/
theorem selection_modal_witness :
    modalClosed (run asciiBuiltins initialPage
      [.filterChanged [65], .modalDismissed, .openTimerFired, .currencyChanged [101, 117, 114]]) :=
  (selection_modal asciiBuiltins
    [.filterChanged [65], .modalDismissed, .openTimerFired, .currencyChanged [101, 117, 114]]).2
    (by decide)

theorem render_charts (js : Builtins) (pg : Page) : (render js pg).charts = pg.charts := by
  unfold render renderPaginationControls renderTable
  split <;> rfl

theorem chartsKept_of_eq {pg pg' : Page} (h : pg'.charts = pg.charts) : ChartsKept pg pg' := by
  unfold ChartsKept liveCharts
  rw [h]
  exact ⟨rfl, le_rfl⟩

theorem chartsKept_trans {pg pg' pg'' : Page} (h1 : ChartsKept pg pg') (h2 : ChartsKept pg' pg'') :
    ChartsKept pg pg'' :=
  ⟨h2.1.trans h1.1, le_trans h2.2 h1.2⟩

/-- Marking one chart as destroyed does not add an undestroyed chart. -/
theorem filter_modify_destroyed (l : List ChartInstance) :
    ∀ k, ((l.modify (fun c => { c with destroyed := true }) k).filter
        fun c => !c.destroyed).length ≤ (l.filter fun c => !c.destroyed).length := by
  induction l with
  | nil => intro k; simp
  | cons a t ih =>
    intro k
    cases k with
    | zero =>
      rw [List.modify_zero_cons]
      simp only [List.filter_cons, Bool.not_true, Bool.false_eq_true, if_false]
      split_ifs
      · exact Nat.le_succ _
      · exact le_rfl
    | succ k =>
      rw [List.modify_succ_cons]
      simp only [List.filter_cons]
      split_ifs
      · exact Nat.succ_le_succ (ih k)
      · exact ih k

theorem destroyPriceChart_kept (pg : Page) : ChartsKept pg (destroyPriceChart pg) := by
  unfold destroyPriceChart
  split
  · exact chartsKept_of_eq rfl
  · exact ⟨List.length_modify _ _ _, filter_modify_destroyed _ _⟩

theorem fetchChartData_kept (pg : Page) : ChartsKept pg (fetchChartData pg) := by
  unfold fetchChartData
  split
  · exact chartsKept_of_eq rfl
  · exact chartsKept_trans (chartsKept_of_eq rfl : ChartsKept pg { pg with chartLoaderShown := true })
      (chartsKept_trans (destroyPriceChart_kept _) (chartsKept_of_eq rfl))

/-- A successful `renderChart` found every chart destroyed and adds one. -/
theorem renderChart_built (prices : List (Nat × Nat)) (pg pg' : Page)
    (h : renderChart prices pg = some pg') : ChartBuilt pg pg' := by
  unfold renderChart at h
  cases hsel : pg.state.selectedCoin with
  | none => simp [hsel] at h
  | some coin =>
    simp only [hsel] at h
    split_ifs at h with hany
    cases h
    refine ⟨?_, ⟨coin.name, prices, false⟩, rfl, rfl⟩
    intro c hc
    by_contra hd
    exact hany (List.any_eq_true.2 ⟨c, hc, by simpa using hd⟩)

/-- Each event either keeps the charts up to `destroy()`, or is the settling of
a chart request whose `renderChart` constructs a chart while none is left
undestroyed. -/
theorem step_charts (js : Builtins) (pg : Page) (e : Event) :
    ChartsKept pg (step js pg e) ∨
      (ChartBuilt pg (step js pg e) ∧ ∃ k prices, e = .chartFetchSettled k (some prices)) := by
  cases e with
  | filterChanged term => exact Or.inl (chartsKept_of_eq (render_charts js _))
  | currencyChanged value =>
    left
    simp only [step, handleCurrencyChange, setupFormatters]
    split_ifs
    · dsimp only
      split_ifs
      · refine chartsKept_trans ?_ (fetchChartData_kept _)
        exact chartsKept_of_eq rfl
      · exact chartsKept_of_eq rfl
    · exact chartsKept_of_eq rfl
  | chartPeriodChanged days =>
    left
    cases days with
    | none => exact chartsKept_of_eq rfl
    | some d =>
      refine chartsKept_trans ?_ (fetchChartData_kept _)
      exact chartsKept_of_eq rfl
  | rowClicked row =>
    left
    cases row with
    | none => exact chartsKept_of_eq rfl
    | some sel =>
      have h1 : ChartsKept pg (destroyPriceChart
          { pg with state := { pg.state with selectedCoin := some sel } }) := by
        refine chartsKept_trans ?_ (destroyPriceChart_kept _)
        exact chartsKept_of_eq rfl
      have h2 : ChartsKept pg (fetchChartData
          { destroyPriceChart { pg with state := { pg.state with selectedCoin := some sel } } with
            chartTitle := .chartOf sel.name }) := by
        refine chartsKept_trans ?_ (fetchChartData_kept _)
        exact chartsKept_trans h1 (chartsKept_of_eq rfl)
      exact chartsKept_trans h2 (chartsKept_of_eq rfl)
  | paginationClicked button =>
    left
    cases button with
    | none => exact chartsKept_of_eq rfl
    | some a =>
      simp only [step, handlePaginationClick]
      split_ifs
      · exact chartsKept_of_eq ((render_charts js _).trans (render_charts js _))
      · exact chartsKept_of_eq (render_charts js _)
      · exact chartsKept_of_eq (render_charts js _)
      · exact chartsKept_of_eq rfl
  | modalDismissed => exact Or.inl (chartsKept_of_eq rfl)
  | openTimerFired =>
    left
    simp only [step, openModalTimer]
    split_ifs <;> exact chartsKept_of_eq rfl
  | closeTimerFired =>
    left
    simp only [step, closeModalTimer]
    split_ifs <;> exact chartsKept_of_eq rfl
  | chartFetchSettled k result =>
    simp only [step, chartFetchDone]
    split_ifs with hk
    · cases result with
      | none => exact Or.inl (chartsKept_of_eq rfl)
      | some prices =>
        cases hr : renderChart prices { pg with pendingCharts := pg.pendingCharts.eraseIdx k } with
        | none =>
          left
          simp only [Option.bind, hr]
          exact chartsKept_of_eq rfl
        | some pg' =>
          right
          simp only [Option.bind, hr]
          obtain ⟨hall, c, hc, hd⟩ := renderChart_built prices _ pg' hr
          exact ⟨⟨hall, c, hc, hd⟩, k, prices, rfl⟩
    · exact Or.inl (chartsKept_of_eq rfl)
  | marketsFetchSettled k result =>
    left
    simp only [step, marketsFetchDone]
    split_ifs
    · cases result with
      | none => exact chartsKept_of_eq rfl
      | some coins => exact chartsKept_of_eq (render_charts js _)
    · exact chartsKept_of_eq rfl

theorem liveCharts_of_built {pg pg' : Page} (h : ChartBuilt pg pg') : liveCharts pg' = 1 := by
  obtain ⟨hall, c, hc, hd⟩ := h
  unfold liveCharts
  rw [hc, List.filter_append]
  have h0 : pg.charts.filter (fun c => !c.destroyed) = [] := by
    rw [List.filter_eq_nil_iff]
    intro x hx
    simp [hall x hx]
  simp [h0, List.filter_cons, hd]

/-- C9: in every state reached from the initial page at most one constructed
chart is not destroyed; a step that constructs a chart is the settling of a
chart request, and every chart constructed before it has been destroyed by
then, so the new chart is the only live one. -/
theorem single_live_chart (js : Builtins) (events : List Event) :
    liveCharts (run js initialPage events) ≤ 1 ∧
    ∀ e, (run js initialPage events).charts.length <
        (step js (run js initialPage events) e).charts.length →
      (∀ c ∈ (run js initialPage events).charts, c.destroyed = true) ∧
      (∃ c, (step js (run js initialPage events) e).charts =
        (run js initialPage events).charts ++ [c] ∧ c.destroyed = false) ∧
      liveCharts (step js (run js initialPage events) e) = 1 ∧
      ∃ k prices, e = .chartFetchSettled k (some prices) := by
  constructor
  · induction events using List.reverseRecOn with
    | nil => exact Nat.zero_le _
    | append_singleton events e ih =>
      rw [run_append_singleton]
      rcases step_charts js (run js initialPage events) e with hk | ⟨hb, _⟩
      · exact le_trans hk.2 ih
      · exact le_of_eq (liveCharts_of_built hb)
  · intro e hlt
    rcases step_charts js (run js initialPage events) e with hk | ⟨hb, he⟩
    · have := hk.1
      omega
    · exact ⟨hb.1, hb.2, liveCharts_of_built hb, he⟩

/-- Witness of `single_live_chart`: the chart of a first request is destroyed
when the period is changed, before the second request settles and its chart is
constructed. -/
theorem single_live_chart_witness :
    (∀ c ∈ (run asciiBuiltins initialPage
        [.rowClicked (some btcRow), .chartFetchSettled 0 (some [(0, 1)]),
          .chartPeriodChanged (some 7)]).charts, c.destroyed = true) ∧
    (∃ c, (step asciiBuiltins (run asciiBuiltins initialPage
        [.rowClicked (some btcRow), .chartFetchSettled 0 (some [(0, 1)]),
          .chartPeriodChanged (some 7)]) (.chartFetchSettled 0 (some [(0, 2)]))).charts =
      (run asciiBuiltins initialPage
        [.rowClicked (some btcRow), .chartFetchSettled 0 (some [(0, 1)]),
          .chartPeriodChanged (some 7)]).charts ++ [c] ∧ c.destroyed = false) ∧
    liveCharts (step asciiBuiltins (run asciiBuiltins initialPage
        [.rowClicked (some btcRow), .chartFetchSettled 0 (some [(0, 1)]),
          .chartPeriodChanged (some 7)]) (.chartFetchSettled 0 (some [(0, 2)]))) = 1 ∧
    ∃ k prices, Event.chartFetchSettled 0 (some [(0, 2)]) = .chartFetchSettled k (some prices) :=
  (single_live_chart asciiBuiltins
    [.rowClicked (some btcRow), .chartFetchSettled 0 (some [(0, 1)]),
      .chartPeriodChanged (some 7)]).2 (.chartFetchSettled 0 (some [(0, 2)])) (by decide)

/-- Two chart requests in flight at once: a row click and a change of the chart
period each start a request while no chart exists. The first to settle
constructs its chart; when the second settles the constructor throws, the
`catch` block writes the error title, and the first chart stays the only one,
drawn for the request that settled first. -/
theorem overlapping_chart_requests :
    liveCharts (run asciiBuiltins initialPage
      [.rowClicked (some btcRow), .modalDismissed, .chartPeriodChanged (some 7),
        .chartFetchSettled 0 (some [(0, 1)]), .chartFetchSettled 0 (some [(0, 2)])]) = 1 ∧
    (run asciiBuiltins initialPage
      [.rowClicked (some btcRow), .modalDismissed, .chartPeriodChanged (some 7),
        .chartFetchSettled 0 (some [(0, 1)]), .chartFetchSettled 0 (some [(0, 2)])]).charts =
      [⟨[66, 116, 99], [(0, 1)], false⟩] ∧
    (run asciiBuiltins initialPage
      [.rowClicked (some btcRow), .modalDismissed, .chartPeriodChanged (some 7),
        .chartFetchSettled 0 (some [(0, 1)]),
        .chartFetchSettled 0 (some [(0, 2)])]).chartTitle = .loadError := by
  refine ⟨by decide, by decide, by decide⟩

/-! ## Plexus frame -/

theorem Extends.refl {α : Type} (f : Plexus α) (c : Nat) : Extends f f c :=
  ⟨⟨0, Nat.zero_le _, rfl⟩, fun h => h, fun _ _ => rfl⟩

theorem Extends.trans {α : Type} {f g h : Plexus α} {a b : Nat} (h1 : Extends f g a) (h2 : Extends g h b) :
    Extends f h (a + b) := by
  obtain ⟨⟨k1, hk1, e1⟩, w1, p1⟩ := h1
  obtain ⟨⟨k2, hk2, e2⟩, w2, p2⟩ := h2
  refine ⟨⟨k1 + k2, by omega, by omega⟩, fun hw => w2 (w1 hw), ?_⟩
  intro m hm
  rw [p2 m hm, p1 m (by omega)]

theorem Extends.mono {α : Type} {f g : Plexus α} {a b : Nat} (h : Extends f g a) (hab : a ≤ b) :
    Extends f g b := by
  obtain ⟨⟨k, hk, e⟩, w, p⟩ := h
  exact ⟨⟨k, by omega, e⟩, w, p⟩

theorem extends_of_line_eq {α : Type} {f g : Plexus α} (h1 : g.lineVertexIndex = f.lineVertexIndex)
    (h2 : g.lineWrites = f.lineWrites) (h3 : g.linePositions = f.linePositions) :
    Extends f g 0 :=
  ⟨⟨0, le_rfl, by omega⟩, by rw [h1, h2]; exact fun h => h, fun m _ => by rw [h3]⟩

theorem pushLine_index {α : Type} (num : Numerics α) (f : Plexus α) (v : α) :
    (f.pushLine num v).lineVertexIndex = f.lineVertexIndex + 1 := rfl

theorem pushLine_writes {α : Type} (num : Numerics α) (f : Plexus α) (v : α) (b : Nat)
    (hb : f.lineVertexIndex < b) (h : ∀ w ∈ f.lineWrites, w < b) :
    ∀ w ∈ (f.pushLine num v).lineWrites, w < b := by
  intro w hw
  simp only [Plexus.pushLine, List.mem_cons] at hw
  rcases hw with rfl | hw
  · exact hb
  · exact h w hw

theorem pushLine_above {α : Type} (num : Numerics α) (f : Plexus α) (v : α) (m : Nat)
    (hm : f.lineVertexIndex < m) : (f.pushLine num v).linePositions m = f.linePositions m := by
  simp only [Plexus.pushLine]
  exact Function.update_noteq (by omega) _ _

section PlexusBounds

variable {α : Type} [LinearOrderedField α]

theorem pairStep_extends (num : Numerics α) (i j : Nat) (f : Plexus α) :
    Extends f (pairStep num i j f) 1 := by
  unfold pairStep
  dsimp only
  split_ifs
  · refine ⟨⟨1, le_rfl, by simp only [pushLine_index]⟩, ?_, ?_⟩
    · intro h
      simp only [pushLine_index]
      refine pushLine_writes num _ _ _ (by simp only [pushLine_index]; omega) ?_
      refine pushLine_writes num _ _ _ (by simp only [pushLine_index]; omega) ?_
      refine pushLine_writes num _ _ _ (by simp only [pushLine_index]; omega) ?_
      refine pushLine_writes num _ _ _ (by simp only [pushLine_index]; omega) ?_
      refine pushLine_writes num _ _ _ (by simp only [pushLine_index]; omega) ?_
      refine pushLine_writes num _ _ _ (by omega) ?_
      intro w hw
      have := h w hw
      omega
    · intro m hm
      simp only [pushLine_index] at hm
      rw [pushLine_above num _ _ m (by simp only [pushLine_index]; omega),
        pushLine_above num _ _ m (by simp only [pushLine_index]; omega),
        pushLine_above num _ _ m (by simp only [pushLine_index]; omega),
        pushLine_above num _ _ m (by simp only [pushLine_index]; omega),
        pushLine_above num _ _ m (by simp only [pushLine_index]; omega),
        pushLine_above num _ _ m (by omega)]
  · exact Extends.refl f 1

theorem pairLoop_extends (num : Numerics α) (n i : Nat) :
    ∀ (fuel j : Nat) (f : Plexus α), Extends f (pairLoop num n i fuel j f) (n - j) := by
  intro fuel
  induction fuel with
  | zero => intro j f; exact Extends.refl f _
  | succ fuel ih =>
    intro j f
    unfold pairLoop
    split_ifs with hj
    · exact ((pairStep_extends num i j f).trans (ih (j + 1) _)).mono (by omega)
    · exact Extends.refl f _

theorem moveParticle_extends (num : Numerics α) (inp : Pointer α) (i : Nat) (f : Plexus α) :
    Extends f (moveParticle num inp i f) 0 := by
  apply extends_of_line_eq <;>
    · unfold moveParticle
      dsimp only
      split_ifs <;> rfl

theorem particleLoop_extends (num : Numerics α) (inp : Pointer α) (n : Nat) :
    ∀ (fuel i : Nat) (f : Plexus α),
      Extends f (particleLoop num inp n fuel i f) ((n - i).choose 2) := by
  intro fuel
  induction fuel with
  | zero => intro i f; exact Extends.refl f _
  | succ fuel ih =>
    intro i f
    unfold particleLoop
    split_ifs with hi
    · have h := ((moveParticle_extends num inp i f).trans
        (pairLoop_extends num n i n (i + 1) _)).trans (ih (i + 1) _)
      refine h.mono ?_
      obtain ⟨m, hm⟩ : ∃ m, n - i = m + 1 := ⟨n - i - 1, by omega⟩
      have hm' : n - (i + 1) = m := by omega
      have hch : (m + 1).choose 2 = m + m.choose 2 := by
        have := Nat.choose_succ_succ m 1
        simpa [Nat.choose_one_right] using this
      rw [hm, hm', hch]
      omega
    · exact Extends.refl f _

/-- The inner loop visits exactly the indices `j, j+1, .., n-1`, whenever its
iteration bound is at least their number. -/
theorem pairLoop_eq_foldl (num : Numerics α) (n i : Nat) :
    ∀ (fuel j : Nat) (f : Plexus α), n - j ≤ fuel →
      pairLoop num n i fuel j f =
        (List.range' j (n - j)).foldl (fun g j' => pairStep num i j' g) f := by
  intro fuel
  induction fuel with
  | zero =>
    intro j f h
    have h0 : n - j = 0 := by omega
    rw [h0]
    rfl
  | succ fuel ih =>
    intro j f h
    unfold pairLoop
    split_ifs with hj
    · obtain ⟨m, hm⟩ : ∃ m, n - j = m + 1 := ⟨n - j - 1, by omega⟩
      have hm' : n - (j + 1) = m := by omega
      rw [ih (j + 1) _ (by omega), hm, hm', List.range'_succ, List.foldl_cons]
    · have h0 : n - j = 0 := by omega
      rw [h0]
      rfl

/-- The outer loop visits exactly the indices `i, i+1, .., n-1`, whenever its
iteration bound is at least their number. -/
theorem particleLoop_eq_foldl (num : Numerics α) (inp : Pointer α) (n : Nat) :
    ∀ (fuel i : Nat) (f : Plexus α), n - i ≤ fuel →
      particleLoop num inp n fuel i f =
        (List.range' i (n - i)).foldl
          (fun g i' => pairLoop num n i' n (i' + 1) (moveParticle num inp i' g)) f := by
  intro fuel
  induction fuel with
  | zero =>
    intro i f h
    have h0 : n - i = 0 := by omega
    rw [h0]
    rfl
  | succ fuel ih =>
    intro i f h
    unfold particleLoop
    split_ifs with hi
    · obtain ⟨m, hm⟩ : ∃ m, n - i = m + 1 := ⟨n - i - 1, by omega⟩
      have hm' : n - (i + 1) = m := by omega
      rw [ih (i + 1) _ (by omega), hm, hm', List.range'_succ, List.foldl_cons]
    · have h0 : n - i = 0 := by omega
      rw [h0]
      rfl

/-- The two loops of `animate` run to completion: the frame is the fold of the
particle step over `i = 0 .. 149`, each followed by the fold of the pair step
over `j = i+1 .. 149`. -/
theorem animate_eq_foldl (num : Numerics α) (inp : Pointer α) (f : Plexus α) :
    animate num inp f =
      (List.range' 0 150).foldl
        (fun g i => (List.range' (i + 1) (150 - (i + 1))).foldl
          (fun h j => pairStep num i j h) (moveParticle num inp i g))
        { f with lineVertexIndex := 0, lineWrites := [] } := by
  unfold animate animateFor
  rw [particleLoop_eq_foldl num inp PARTICLE_COUNT PARTICLE_COUNT 0 _ (by omega)]
  have hbody : (fun g i' => pairLoop num PARTICLE_COUNT i' PARTICLE_COUNT (i' + 1)
        (moveParticle num inp i' g)) =
      fun (g : Plexus α) i => (List.range' (i + 1) (150 - (i + 1))).foldl
        (fun h j => pairStep num i j h) (moveParticle num inp i g) := by
    funext g i'
    rw [pairLoop_eq_foldl num PARTICLE_COUNT i' PARTICLE_COUNT (i' + 1) _
      (by unfold PARTICLE_COUNT; omega)]
    rfl
  rw [hbody]
  rfl

/-- C5: one call of `animate` emits `k ≤ C(150,2) = 11175` segments, that is
`2k ≤ 22350` line vertices; the final `lineVertexIndex` is `6k ≤ 67050`, below
the length `150*150*3 = 67500` of `linePositions`; every store into
`linePositions` goes to an index below the final `lineVertexIndex`, hence inside
the buffer, and nothing at or beyond that index is stored to. -/
theorem plexus_buffer_bound (num : Numerics α) (inp : Pointer α) (f : Plexus α) :
    (∃ k, k ≤ Nat.choose 150 2 ∧ (animate num inp f).lineVertexIndex = 6 * k ∧
      drawCount (animate num inp f) = 2 * k) ∧
    drawCount (animate num inp f) ≤ 2 * Nat.choose 150 2 ∧
    2 * Nat.choose 150 2 = 22350 ∧
    (animate num inp f).lineVertexIndex ≤ linePositionsLength ∧
    linePositionsLength = 150 * 150 * 3 ∧
    (∀ w ∈ (animate num inp f).lineWrites,
      w < (animate num inp f).lineVertexIndex ∧ w < linePositionsLength) ∧
    (∀ m, (animate num inp f).lineVertexIndex ≤ m →
      (animate num inp f).linePositions m = f.linePositions m) := by
  have hc : Nat.choose 150 2 = 11175 := by
    rw [Nat.choose_two_right]
  have hlen : linePositionsLength = 67500 := rfl
  obtain ⟨⟨k, hk, e⟩, w, p⟩ := particleLoop_extends num inp PARTICLE_COUNT PARTICLE_COUNT 0
    { f with lineVertexIndex := 0, lineWrites := [] }
  have hk' : k ≤ 11175 := by
    have : (PARTICLE_COUNT - 0).choose 2 = 11175 := hc
    omega
  have e' : (animate num inp f).lineVertexIndex = 6 * k := by
    have : (animate num inp f).lineVertexIndex = 0 + 6 * k := e
    omega
  have hd : drawCount (animate num inp f) = 2 * k := by
    unfold drawCount
    omega
  refine ⟨⟨k, by omega, e', hd⟩, by omega, by omega, by omega, rfl, ?_, ?_⟩
  · intro x hx
    have hw := w (by intro y hy; cases hy) x hx
    have hw' : x < (animate num inp f).lineVertexIndex := hw
    exact ⟨hw', by omega⟩
  · intro m hm
    exact p m hm

end PlexusBounds

/-! ## Modal body -/

/-- The description of a coin whose `ru` entry is absent or empty and whose `en`
entry is absent: the render throws. -/
theorem renderModalContent_en_absent (s : State) (details : CoinDetail)
    (hru : details.description.ru = none ∨ details.description.ru = some [])
    (hen : details.description.en = none) :
    ∀ html, renderModalContent s details ≠ .ok html := by
  intro html h
  have hd : descriptionHtml details.description = .error ⟨"split"⟩ := by
    unfold descriptionHtml englishDescription
    rcases hru with hru | hru <;> rw [hru, hen]
  unfold renderModalContent at h
  rw [hd] at h
  cases hf : s.currencyFormatter <;> cases hm : s.marketCapFormatter <;>
    cases hc : details.marketData.priceChangePercentage24hInCurrency s.currentCurrency <;>
    simp [hf, hm, hc, bind, Except.bind, pure, Except.pure, throw, throwThe,
      MonadExceptOf.throw] at h

/-- The description of a coin whose `ru` entry is absent or empty and whose `en`
entry is the empty string: a single full stop. -/
theorem renderModalContent_en_empty (s : State) (details : CoinDetail)
    (hru : details.description.ru = none ∨ details.description.ru = some [])
    (hen : details.description.en = some []) :
    ∀ html, renderModalContent s details = .ok html → html.description = [46] := by
  intro html h
  have hd : descriptionHtml details.description = .ok [46] := by
    unfold descriptionHtml englishDescription
    rcases hru with hru | hru <;> rw [hru, hen] <;> rfl
  unfold renderModalContent at h
  rw [hd] at h
  cases hf : s.currencyFormatter <;> cases hm : s.marketCapFormatter <;>
    cases hc : details.marketData.priceChangePercentage24hInCurrency s.currentCurrency <;>
    simp [hf, hm, hc, bind, Except.bind, pure, Except.pure, throw, throwThe,
      MonadExceptOf.throw] at h
  rw [← h]

/-- C11, evaluated where the code departs from the claim: with the formatters
set up and every market value present, a coin detail whose description has no
`ru` entry and the empty string as `en` entry is rendered with the description
`.` (one full stop), not the empty string; with no `en` entry either the render
throws a `TypeError` from the call of `split`. -/
theorem description_fallback_fails :
    (∃ html, renderModalContent usdState (detailWith ⟨none, some []⟩) = .ok html ∧
      html.description = [46]) ∧
    renderModalContent usdState (detailWith ⟨none, none⟩) = .error ⟨"split"⟩ :=
  ⟨⟨_, rfl, rfl⟩, rfl⟩

/-! ## Plexus frame: which segments are emitted -/

theorem emitted_pushLine {α : Type} (num : Numerics α) (g : Plexus α) (v : α) :
    emitted (g.pushLine num v) = emitted g ++ [num.fround v] := by
  unfold emitted Plexus.pushLine
  simp only [List.range_succ, List.map_append, List.map_cons, List.map_nil,
    Function.update_same]
  congr 1
  apply List.map_congr_left
  intro k hk
  have hk' : k < g.lineVertexIndex := List.mem_range.1 hk
  exact Function.update_noteq (by omega) _ _

section PlexusEmission

variable {α : Type} [LinearOrderedField α]

theorem pairStep_emitted (num : Numerics α) (i j : Nat) (g : Plexus α) :
    (pairStep num i j g).positions = g.positions ∧
    (pairStep num i j g).velocities = g.velocities ∧
    emitted (pairStep num i j g) = emitted g ++ segment num g.positions g.positions i j := by
  unfold pairStep segment
  dsimp only
  split_ifs
  · refine ⟨rfl, rfl, ?_⟩
    simp only [emitted_pushLine, List.append_assoc, List.singleton_append]
    rfl
  · exact ⟨rfl, rfl, (List.append_nil _).symm⟩

theorem pairLoop_emitted (num : Numerics α) (n i : Nat) :
    ∀ (fuel j : Nat) (g : Plexus α), n - j ≤ fuel →
      (pairLoop num n i fuel j g).positions = g.positions ∧
      (pairLoop num n i fuel j g).velocities = g.velocities ∧
      emitted (pairLoop num n i fuel j g) =
        emitted g ++ (List.range' j (n - j)).flatMap
          fun j' => segment num g.positions g.positions i j' := by
  intro fuel
  induction fuel with
  | zero =>
    intro j g h
    have h0 : n - j = 0 := by omega
    rw [h0]
    exact ⟨rfl, rfl, by simp [pairLoop]⟩
  | succ fuel ih =>
    intro j g h
    unfold pairLoop
    split_ifs with hj
    · obtain ⟨m, hm⟩ : ∃ m, n - j = m + 1 := ⟨n - j - 1, by omega⟩
      have hm' : n - (j + 1) = m := by omega
      obtain ⟨p1, v1, e1⟩ := pairStep_emitted num i j g
      obtain ⟨p2, v2, e2⟩ := ih (j + 1) (pairStep num i j g) (by omega)
      refine ⟨p2.trans p1, v2.trans v1, ?_⟩
      rw [e2, e1, p1, hm, hm', List.range'_succ, List.flatMap_cons, List.append_assoc]
    · have h0 : n - j = 0 := by omega
      rw [h0]
      exact ⟨rfl, rfl, by simp⟩

theorem moveParticle_emitted (num : Numerics α) (inp : Pointer α) (i : Nat) (g : Plexus α) :
    emitted (moveParticle num inp i g) = emitted g := by
  unfold moveParticle emitted
  dsimp only
  split_ifs <;> rfl

theorem moveParticle_positions_of_ne (num : Numerics α) (inp : Pointer α) (i : Nat)
    (g : Plexus α) (k : Nat) (h0 : k ≠ i * 3) (h1 : k ≠ i * 3 + 1) :
    (moveParticle num inp i g).positions k = g.positions k := by
  unfold moveParticle
  dsimp only
  split_ifs <;>
    simp only [Plexus.setPosition, Function.update_noteq h0, Function.update_noteq h1]

theorem segment_congr (num : Numerics α) (p q p' q' : Nat → α) (i j : Nat)
    (hp : ∀ c, c < 3 → p (i * 3 + c) = p' (i * 3 + c))
    (hq : ∀ c, c < 3 → q (j * 3 + c) = q' (j * 3 + c)) :
    segment num p q i j = segment num p' q' i j := by
  have hp0 := hp 0 (by omega)
  have hq0 := hq 0 (by omega)
  simp only [Nat.add_zero] at hp0 hq0
  unfold segment
  rw [hp0, hp 1 (by omega), hp 2 (by omega), hq0, hq 1 (by omega), hq 2 (by omega)]

/-- The outer loop from index `i` on: the entries of particles below `i` stay as
they are, and the pair `(i', j)` is emitted from the final position of `i'` and
the position particle `j` has when the loop is entered. -/
theorem particleLoop_emitted (num : Numerics α) (inp : Pointer α) (n : Nat) :
    ∀ (fuel i : Nat) (g : Plexus α), n - i ≤ fuel →
      (∀ k, k < i * 3 → (particleLoop num inp n fuel i g).positions k = g.positions k) ∧
      emitted (particleLoop num inp n fuel i g) =
        emitted g ++ (List.range' i (n - i)).flatMap fun i' =>
          (List.range' (i' + 1) (n - (i' + 1))).flatMap fun j =>
            segment num (particleLoop num inp n fuel i g).positions g.positions i' j := by
  intro fuel
  induction fuel with
  | zero =>
    intro i g h
    have h0 : n - i = 0 := by omega
    rw [h0]
    exact ⟨fun _ _ => rfl, by simp [particleLoop]⟩
  | succ fuel ih =>
    intro i g h
    by_cases hi : i < n
    · have hunf : particleLoop num inp n (fuel + 1) i g =
          particleLoop num inp n fuel (i + 1)
            (pairLoop num n i n (i + 1) (moveParticle num inp i g)) := by
        simp only [particleLoop, if_pos hi]
      rw [hunf]
      obtain ⟨p2, _, e2⟩ := pairLoop_emitted num n i n (i + 1) (moveParticle num inp i g)
        (by omega)
      obtain ⟨ihp, ihe⟩ := ih (i + 1) (pairLoop num n i n (i + 1) (moveParticle num inp i g))
        (by omega)
      have hold : ∀ k, k ≠ i * 3 → k ≠ i * 3 + 1 →
          (pairLoop num n i n (i + 1) (moveParticle num inp i g)).positions k =
            g.positions k := by
        intro k h0 h1
        rw [p2, moveParticle_positions_of_ne num inp i g k h0 h1]
      refine ⟨?_, ?_⟩
      · intro k hk
        rw [ihp k (by omega), hold k (by omega) (by omega)]
      · obtain ⟨m, hm⟩ : ∃ m, n - i = m + 1 := ⟨n - i - 1, by omega⟩
        have hm' : n - (i + 1) = m := by omega
        rw [ihe, e2, moveParticle_emitted, hm, List.range'_succ, List.flatMap_cons,
          List.append_assoc, hm']
        congr 2
        · apply List.flatMap_congr
          intro j hj
          have hj' : i + 1 ≤ j := (List.mem_range'_1.1 hj).1
          apply segment_congr
          · intro c hc
            rw [ihp (i * 3 + c) (by omega), p2]
          · intro c hc
            exact moveParticle_positions_of_ne num inp i g _ (by omega) (by omega)
        · apply List.flatMap_congr
          intro i' hi'
          have hi'' : i + 1 ≤ i' := (List.mem_range'_1.1 hi').1
          apply List.flatMap_congr
          intro j hj
          have hj' : i' + 1 ≤ j := (List.mem_range'_1.1 hj).1
          apply segment_congr
          · intro c _
            rfl
          · intro c hc
            exact hold _ (by omega) (by omega)
    · have h0 : n - i = 0 := by omega
      rw [h0]
      exact ⟨fun _ _ => by simp only [particleLoop, if_neg hi], by simp [particleLoop, hi]⟩

/-- C12, amended: the floats one call of `animate` leaves in the draw range are
the segments of the pairs `(i, j)`, `i < j < 150`, in lexicographic order, where
a pair is emitted when `Math.sqrt` of the squared distance is below 80, the
position of particle `i` being the one that results from this frame and the
position of particle `j` the one it had when the frame began (particle `j` is
moved only after the pairs of `i` are tested); the two vertices are these two
positions. -/
theorem plexus_pair_emission (num : Numerics α) (inp : Pointer α) (f : Plexus α) :
    emitted (animate num inp f) =
      segments num PARTICLE_COUNT (animate num inp f).positions f.positions ∧
    (animate num inp f).lineVertexIndex =
      (segments num PARTICLE_COUNT (animate num inp f).positions f.positions).length := by
  have h := (particleLoop_emitted num inp PARTICLE_COUNT PARTICLE_COUNT 0
    { f with lineVertexIndex := 0, lineWrites := [] } (by omega)).2
  have he : emitted (animate num inp f) =
      segments num PARTICLE_COUNT (animate num inp f).positions f.positions := by
    unfold animate animateFor segments
    rw [h]
    simp [emitted]
  refine ⟨he, ?_⟩
  rw [← he]
  simp [emitted]

theorem moveParticle_congr (num : Numerics α) (inp : Pointer α) (i : Nat) (g h : Plexus α)
    (hp : g.positions = h.positions) (hv : g.velocities = h.velocities) :
    (moveParticle num inp i g).positions = (moveParticle num inp i h).positions ∧
    (moveParticle num inp i g).velocities = (moveParticle num inp i h).velocities := by
  unfold moveParticle
  simp only [Plexus.setPosition, hp, hv]
  constructor <;> split_ifs <;> rfl

theorem animateFor_positions_first_two (num : Numerics α) (inp : Pointer α) (m : Nat)
    (f : Plexus α) (k : Nat) (hk : k < 6) :
    (animateFor num inp (m + 2) f).positions k =
      (moveParticle num inp 1 (moveParticle num inp 0 f)).positions k := by
  have e0 : animateFor num inp (m + 2) f =
      particleLoop num inp (m + 2) m 2
        (pairLoop num (m + 2) 1 (m + 2) 2 (moveParticle num inp 1
          (pairLoop num (m + 2) 0 (m + 2) 1 (moveParticle num inp 0
            { f with lineVertexIndex := 0, lineWrites := [] })))) := by
    have h0 : 0 < m + 2 := by omega
    have h1 : 1 < m + 2 := by omega
    unfold animateFor
    rw [particleLoop, if_pos h0, particleLoop, if_pos h1]
  rw [e0]
  rw [(particleLoop_emitted num inp (m + 2) m 2 _ (by omega)).1 k (by omega)]
  obtain ⟨p1, v1, _⟩ := pairLoop_emitted num (m + 2) 0 (m + 2) 1
    (moveParticle num inp 0 { f with lineVertexIndex := 0, lineWrites := [] }) (by omega)
  obtain ⟨p2, _, _⟩ := pairLoop_emitted num (m + 2) 1 (m + 2) 2
    (moveParticle num inp 1 (pairLoop num (m + 2) 0 (m + 2) 1
      (moveParticle num inp 0 { f with lineVertexIndex := 0, lineWrites := [] }))) (by omega)
  obtain ⟨q0, w0⟩ := moveParticle_congr num inp 0
    { f with lineVertexIndex := 0, lineWrites := [] } f rfl rfl
  rw [p2, (moveParticle_congr num inp 1 _ _ (p1.trans q0) (v1.trans w0)).1]

/-- The entries of particles 0 and 1 after a frame are those left by moving
particle 0 and then particle 1. -/
theorem animate_positions_first_two (num : Numerics α) (inp : Pointer α) (f : Plexus α)
    (k : Nat) (hk : k < 6) :
    (animate num inp f).positions k =
      (moveParticle num inp 1 (moveParticle num inp 0 f)).positions k :=
  animateFor_positions_first_two num inp 148 f k hk

/-- A particle that is not within 100 of the mouse anchor after integration is
only integrated: its two entries become `x'` and `y'`, and no other particle's
velocity changes. -/
theorem moveParticle_far (num : Numerics α) (inp : Pointer α) (i : Nat) (g : Plexus α)
    (x' y' : α)
    (hx : num.fround (g.positions (i * 3) + (g.velocities i).x) = x')
    (hy : num.fround (g.positions (i * 3 + 1) + (g.velocities i).y) = y')
    (hfar : ¬ num.sqrt
      ((x' - inp.mouseX * inp.innerWidth / 5) * (x' - inp.mouseX * inp.innerWidth / 5) +
        (y' - inp.mouseY * inp.innerHeight / 5) * (y' - inp.mouseY * inp.innerHeight / 5) +
        (g.positions (i * 3 + 2) - 0) * (g.positions (i * 3 + 2) - 0)) < 100) :
    (moveParticle num inp i g).positions =
        Function.update (Function.update g.positions (i * 3) x') (i * 3 + 1) y' ∧
    ∀ k, k ≠ i → (moveParticle num inp i g).velocities k = g.velocities k := by
  have h01 : i * 3 ≠ i * 3 + 1 := by omega
  have h21 : i * 3 + 2 ≠ i * 3 + 1 := by omega
  have h20 : i * 3 + 2 ≠ i * 3 := by omega
  unfold moveParticle
  simp only [Plexus.setPosition, Vector3.distanceTo, Function.update_same,
    Function.update_noteq h01, Function.update_noteq h01.symm, Function.update_noteq h21,
    Function.update_noteq h20, hx, hy, if_neg hfar]
  constructor
  · split_ifs <;> rfl
  · intro k hk
    split_ifs <;> simp only [Function.update_noteq hk]

/-- The segment of a pair whose six coordinates are known and whose distance is
below 80. -/
theorem segment_of_near (num : Numerics α) (p q : Nat → α) (i j : Nat) (a b c d e f : α)
    (ha : p (i * 3) = a) (hb : p (i * 3 + 1) = b) (hc : p (i * 3 + 2) = c)
    (hd : q (j * 3) = d) (he : q (j * 3 + 1) = e) (hf : q (j * 3 + 2) = f)
    (hnear : num.sqrt ((a - d) * (a - d) + (b - e) * (b - e) + (c - f) * (c - f)) < 80) :
    segment num p q i j =
      [num.fround a, num.fround b, num.fround c, num.fround d, num.fround e, num.fround f] := by
  unfold segment
  simp only [ha, hb, hc, hd, he, hf, if_pos hnear]

/-- The segments of all pairs begin with the segment of the pair `(0, 1)`. -/
theorem segments_head (num : Numerics α) (p q : Nat → α) :
    ∃ rest, segments num PARTICLE_COUNT p q = segment num p q 0 1 ++ rest := by
  unfold segments
  have h150 : PARTICLE_COUNT = 149 + 1 := rfl
  have h149 : PARTICLE_COUNT - (0 + 1) = 148 + 1 := rfl
  rw [h150, List.range'_succ, List.flatMap_cons, ← h150, h149, List.range'_succ,
    List.flatMap_cons, List.append_assoc]
  exact ⟨_, rfl⟩

/-- The first floats `animate` emits are the segment of the pair `(0, 1)`, read
from the final position of particle 0 and the initial position of particle 1. -/
theorem animate_emitted_head (num : Numerics α) (inp : Pointer α) (f : Plexus α) :
    ∃ rest, emitted (animate num inp f) =
      segment num (animate num inp f).positions f.positions 0 1 ++ rest := by
  obtain ⟨rest, hrest⟩ := segments_head num (animate num inp f).positions f.positions
  refine ⟨rest, ?_⟩
  rw [← hrest]
  have h := (particleLoop_emitted num inp PARTICLE_COUNT PARTICLE_COUNT 0
    { f with lineVertexIndex := 0, lineWrites := [] } (by omega)).2
  unfold animate animateFor segments
  rw [h]
  simp [emitted]

end PlexusEmission

/-! ## Plexus frame: the example -/

theorem exactSqrt_natCast_sq (n : ℕ) : exactSqrt ((n : ℚ) * (n : ℚ)) = (n : ℚ) := by
  unfold exactSqrt
  have h : ((n : ℚ) * (n : ℚ)) = ((n * n : ℕ) : ℚ) := by push_cast; rfl
  rw [h, Nat.floor_natCast, Nat.sqrt_eq]

theorem exactSqrt_values :
    exactSqrt 40000 = 200 ∧ exactSqrt 16384 = 128 ∧ exactSqrt 4900 = 70 ∧
      exactSqrt 5184 = 72 := by
  have h1 := exactSqrt_natCast_sq 200
  have h2 := exactSqrt_natCast_sq 128
  have h3 := exactSqrt_natCast_sq 70
  have h4 := exactSqrt_natCast_sq 72
  norm_num at h1 h2 h3 h4
  exact ⟨h1, h2, h3, h4⟩

/-- Moving particle 0 of the example leaves the positions as they are. -/
theorem example_move0 :
    (moveParticle exampleNumerics examplePointer 0 exampleFrame).positions =
        Function.update (Function.update exampleFrame.positions (0 * 3) 0) (0 * 3 + 1) 0 ∧
    ∀ k, k ≠ 0 → (moveParticle exampleNumerics examplePointer 0 exampleFrame).velocities k =
      exampleFrame.velocities k := by
  apply moveParticle_far
  · simp [exampleNumerics, exampleFrame]
  · simp [exampleNumerics, exampleFrame]
  · simp only [exampleNumerics, examplePointer, exampleFrame]
    norm_num [exactSqrt_values.1]

/-- Moving particle 1 of the example takes it from `x = 70` to `x = 72`. -/
theorem example_move1 :
    (moveParticle exampleNumerics examplePointer 1
        (moveParticle exampleNumerics examplePointer 0 exampleFrame)).positions =
      Function.update (Function.update
        (moveParticle exampleNumerics examplePointer 0 exampleFrame).positions (1 * 3) 72)
        (1 * 3 + 1) 0 := by
  refine (moveParticle_far exampleNumerics examplePointer 1 _ 72 0 ?_ ?_ ?_).1
  · rw [example_move0.1, example_move0.2 1 (by decide)]
    simp only [exampleNumerics, exampleFrame]
    norm_num [Function.update_apply]
  · rw [example_move0.1, example_move0.2 1 (by decide)]
    simp only [exampleNumerics, exampleFrame]
    norm_num [Function.update_apply]
  · rw [example_move0.1]
    simp only [exampleNumerics, examplePointer, exampleFrame]
    norm_num [Function.update_apply, exactSqrt_values.2.1]

/-- The entries of particles 0 and 1 of the example after the frame. -/
theorem example_positions (k : Nat) (hk : k < 6) :
    (animate exampleNumerics examplePointer exampleFrame).positions k =
      if k = 3 then 72 else 0 := by
  rw [animate_positions_first_two _ _ _ k hk, example_move1, example_move0.1]
  simp only [exampleFrame]
  interval_cases k <;> norm_num [Function.update_apply]

/-- C12, the claim as stated fails: in the example frame particle 1 starts at
`(70, 0, 0)` and is moved to `(72, 0, 0)`; the first segment `animate` emits is
that of the pair `(0, 1)`, and its second vertex is `(70, 0, 0)`, the position of
particle 1 before it was moved, while the claim has the segment end at the
updated position `(72, 0, 0)`. -/
theorem pair_emission_counterexample :
    exampleFrame.positions 3 = 70 ∧
    (animate exampleNumerics examplePointer exampleFrame).positions 3 = 72 ∧
    (emitted (animate exampleNumerics examplePointer exampleFrame)).take 6 =
      [0, 0, 0, 70, 0, 0] ∧
    (specSegments exampleNumerics examplePointer exampleFrame).take 6 =
      [0, 0, 0, 72, 0, 0] := by
  have hP := example_positions
  have hcode : segment exampleNumerics
      (animate exampleNumerics examplePointer exampleFrame).positions exampleFrame.positions 0 1 =
      [0, 0, 0, 70, 0, 0] := by
    rw [segment_of_near exampleNumerics _ _ 0 1 0 0 0 70 0 0
      (by rw [hP _ (by decide)]; rfl) (by rw [hP _ (by decide)]; rfl)
      (by rw [hP _ (by decide)]; rfl) (by simp [exampleFrame]) (by simp [exampleFrame])
      (by simp [exampleFrame])
      (by simp only [exampleNumerics]; norm_num [exactSqrt_values.2.2.1])]
    rfl
  have hspec : segment exampleNumerics
      (animate exampleNumerics examplePointer exampleFrame).positions
      (animate exampleNumerics examplePointer exampleFrame).positions 0 1 =
      [0, 0, 0, 72, 0, 0] := by
    rw [segment_of_near exampleNumerics _ _ 0 1 0 0 0 72 0 0
      (by rw [hP _ (by decide)]; rfl) (by rw [hP _ (by decide)]; rfl)
      (by rw [hP _ (by decide)]; rfl) (by rw [hP _ (by decide)]; rfl)
      (by rw [hP _ (by decide)]; rfl) (by rw [hP _ (by decide)]; rfl)
      (by simp only [exampleNumerics]; norm_num [exactSqrt_values.2.2.2])]
    rfl
  refine ⟨by simp [exampleFrame], by rw [hP 3 (by decide)]; rfl, ?_, ?_⟩
  · obtain ⟨rest, hrest⟩ := animate_emitted_head exampleNumerics examplePointer exampleFrame
    rw [hrest, hcode]
    rfl
  · obtain ⟨rest, hrest⟩ := segments_head exampleNumerics
      (animate exampleNumerics examplePointer exampleFrame).positions
      (animate exampleNumerics examplePointer exampleFrame).positions
    unfold specSegments
    rw [hrest, hspec]
    rfl

end CryptoTrack
